import Mathlib

/-!
Verification of the DMPR routing core (`dmpr.py`) against its specification.

The Python source is shallowly embedded:
* Python dicts become association lists `List (String × α)`; Python keeps keys
  unique and preserves insertion order, assignment to an existing key keeps its
  position (`pyUpsert`), assignment to a fresh key appends at the end.
* Python numbers (ints and the floats produced by `10000000/bw`) become `ℚ`;
  `int(x)` truncation toward zero is `pyInt`.
* Exceptions (KeyError on a missing key, IndexError, TypeError,
  ZeroDivisionError, the `assert` statements, ConfigurationException) become
  `Except PyErr`.  An `.error` result models the Python call raising; state
  mutated before the raise is not tracked, the theorems below only concern
  normal returns and the fact that a raise happened.
* The external callbacks (packet tx, routing-table installer) are modelled as
  an `Effects` record listing the calls the operation made; the clock
  `get_time()` and the jitter draw `random.randint(0, jitter)` are passed in as
  arguments (`now`, `r`).
-/

set_option autoImplicit false

/- Batteries seals the rational-number operations; the concrete evaluation
theorems below need them to reduce. -/
attribute [local semireducible] Rat.mul Rat.add Rat.sub Rat.inv

namespace DmprSpec

/-- The Python exception kinds the embedded code can raise. -/
inductive PyErr where
  | keyError
  | indexError
  | typeError
  | zeroDivisionError
  | internalException
  | configurationException
  | assertionError
  | nameError
  deriving DecidableEq, Repr

instance {ε α : Type} [DecidableEq ε] [DecidableEq α] : DecidableEq (Except ε α) := fun x y =>
  match x, y with
  | .ok a, .ok b =>
    if h : a = b then .isTrue (by rw [h]) else .isFalse (by intro hc; cases hc; exact h rfl)
  | .error a, .error b =>
    if h : a = b then .isTrue (by rw [h]) else .isFalse (by intro hc; cases hc; exact h rfl)
  | .ok _, .error _ => .isFalse (by intro hc; cases hc)
  | .error _, .ok _ => .isFalse (by intro hc; cases hc)

/-- Reading a dict key (or an attribute modelled as `Option`): raises KeyError
when absent. -/
def getOpt {α : Type} : Option α → Except PyErr α
  | some a => .ok a
  | none => .error .keyError

/-- First binding of key `k` in a Python dict (`d[k]` / `k in d`). -/
def pyLookup {α : Type} (k : String) : List (String × α) → Option α
  | [] => none
  | p :: r => if p.1 = k then some p.2 else pyLookup k r

/-- Python dict assignment `d[k] = v`: replace in place when the key exists,
append at the end when it is new. -/
def pyUpsert {α : Type} (k : String) (v : α) : List (String × α) → List (String × α)
  | [] => [(k, v)]
  | p :: r => if p.1 = k then (k, v) :: r else p :: pyUpsert k v r

/-- Python `del d[k]` (keys are unique in a Python dict, so removing every
binding of `k` is the same operation). -/
def pyDelete {α : Type} (k : String) (l : List (String × α)) : List (String × α) :=
  l.filter (fun p => ¬(p.1 = k))

/-- Python `int(x)` on a number: truncation toward zero. -/
def pyInt (q : ℚ) : Int :=
  if q < 0 then -((-q).floor) else q.floor

/-- Python true division `a / b`: raises ZeroDivisionError on `b = 0`
(the float result is modelled as the exact rational). -/
def pyDiv (a b : ℚ) : Except PyErr ℚ :=
  if b = 0 then .error .zeroDivisionError else .ok (a / b)

/-- Python `s[i]` on a string: the one-character string at position `i`,
IndexError when out of range. -/
def pyCharAt (s : String) (i : Nat) : Except PyErr String :=
  match s.toList.get? i with
  | some c => .ok (String.singleton c)
  | none => .error .indexError

/-- The route-key builder `"{}>{}".format(a, b)`. -/
def mkRoute (a b : String) : String :=
  a ++ ">" ++ b

/-! ## Python values and `_cmp_dicts` / `_cmp_packets`

Received route packets are JSON objects; `_cmp_dicts` walks them generically,
so for claim C4 the packets are modelled by a generic Python-value type. -/

/-- A Python/JSON value as it appears in a route packet.  Python ints and
floats are both `num` (Python `==` identifies `5` and `5.0`). -/
inductive PyVal where
  | none
  | str (s : String)
  | num (q : ℚ)
  | bool (b : Bool)
  | list (xs : List PyVal)
  | dict (d : List (String × PyVal))

mutual
/-- Python `==` on packet values.  For dicts: equal size and every key of the
left dict present in the right with `==`-equal value (Python dicts have unique
keys, so this is Python's order-insensitive dict equality). -/
def pyEq : PyVal → PyVal → Bool
  | .none, .none => true
  | .str a, .str b => a = b
  | .num a, .num b => a = b
  | .bool a, .bool b => a = b
  | .list xs, .list ys => pyEqList xs ys
  | .dict d1, .dict d2 => d1.length = d2.length && pyEqSub d1 d2
  | _, _ => false
termination_by a b => sizeOf a + sizeOf b
decreasing_by all_goals (simp_wf; try omega)

/-- Python `==` on lists: element-wise. -/
def pyEqList : List PyVal → List PyVal → Bool
  | [], [] => true
  | x :: xs, y :: ys => pyEq x y && pyEqList xs ys
  | _, _ => false
termination_by xs ys => sizeOf xs + sizeOf ys
decreasing_by all_goals (simp_wf; try omega)

/-- Every binding of the first dict is present and `==`-equal in the second. -/
def pyEqSub : List (String × PyVal) → List (String × PyVal) → Bool
  | [], _ => true
  | (k, v) :: rest, d2 => pyEqFind k v d2 && pyEqSub rest d2
termination_by d1 d2 => sizeOf d1 + sizeOf d2
decreasing_by all_goals (simp_wf; try omega)

/-- Look up `k` in `d2` (first binding) and compare its value with `v`. -/
def pyEqFind : String → PyVal → List (String × PyVal) → Bool
  | _, _, [] => false
  | k, v, (k2, v2) :: rest => if k2 = k then pyEq v v2 else pyEqFind k v rest
termination_by _ v d2 => sizeOf v + sizeOf d2
decreasing_by all_goals (simp_wf; try omega)
end

mutual
/-- `_cmp_dicts(dict1, dict2)` from the source, on generic values.  `None` and
non-dict arguments give `False`; the buggy key-set condition
`shared_keys = set(dict2.keys()) & set(dict2.keys())` followed by
`if not len(shared_keys) == len(dict1.keys()) and len(shared_keys) == len(dict2.keys())`
is reproduced literally (`shared_keys` is the set of keys of `dict2`). -/
def cmpDicts : PyVal → PyVal → Bool
  | .dict d1, .dict d2 =>
    if !((d2.map Prod.fst).dedup.length = d1.length : Bool)
        && ((d2.map Prod.fst).dedup.length = d2.length : Bool) then
      false
    else
      cmpSub d1 d2
  | _, _ => false
termination_by a b => sizeOf a + sizeOf b
decreasing_by all_goals (simp_wf; try omega)

/-- The `for key in dict1.keys()` loop of `_cmp_dicts`: a missing key returns
`False` immediately, a value mismatch only clears the accumulator `eq`; both
produce the same final truth value, so the loop is the conjunction below. -/
def cmpSub : List (String × PyVal) → List (String × PyVal) → Bool
  | [], _ => true
  | (k, v) :: rest, d2 => cmpFind k v d2 && cmpSub rest d2
termination_by d1 d2 => sizeOf d1 + sizeOf d2
decreasing_by all_goals (simp_wf; try omega)

/-- `dict2[key]` and the per-key comparison of `_cmp_dicts`: dict values
recurse through `_cmp_dicts`, other values use Python `==`. -/
def cmpFind : String → PyVal → List (String × PyVal) → Bool
  | _, _, [] => false
  | k, v, (k2, v2) :: rest =>
    if k2 = k then
      match v with
      | .dict d => cmpDicts (.dict d) v2
      | _ => pyEq v v2
    else cmpFind k v rest
termination_by _ v d2 => sizeOf v + sizeOf d2
decreasing_by all_goals (simp_wf; try omega)
end

/-- `p['sequence-no'] = 0`: only dicts support item assignment. -/
def pySetItem (p : PyVal) (k : String) (v : PyVal) : Except PyErr PyVal :=
  match p with
  | .dict d => .ok (.dict (pyUpsert k v d))
  | _ => .error .typeError

/-- `_cmp_packets`: deep-copy both packets (a no-op in the pure model), zero
out `sequence-no` on both, then `_cmp_dicts`. -/
def cmpPackets (packet1 packet2 : PyVal) : Except PyErr Bool := do
  let p1 ← pySetItem packet1 "sequence-no" (.num 0)
  let p2 ← pySetItem packet2 "sequence-no" (.num 0)
  return cmpDicts p1 p2

mutual
/-- Well-formedness a value obtained from a real Python object always has:
every dict (at any depth) has pairwise-distinct keys. -/
def pyWF : PyVal → Bool
  | .dict d => decide ((d.map Prod.fst).Nodup) && pyWFDict d
  | .list xs => pyWFList xs
  | _ => true

/-- All list elements well-formed. -/
def pyWFList : List PyVal → Bool
  | [] => true
  | x :: xs => pyWF x && pyWFList xs

/-- All dict values well-formed. -/
def pyWFDict : List (String × PyVal) → Bool
  | [] => true
  | p :: r => pyWF p.2 && pyWFDict r
end

/-- Number of keys of a packet dict (`len(p.keys())`). -/
def pyNumKeys : PyVal → Nat
  | .dict d => d.length
  | _ => 0

/-- `k in p` for a dict value. -/
def pyHasKey (p : PyVal) (k : String) : Bool :=
  match p with
  | .dict d => (pyLookup k d).isSome
  | _ => false

/-- Is the value a dict? -/
def PyVal.isDict : PyVal → Bool
  | .dict _ => true
  | _ => false

/-! ## Data model of the core

Structured views of the objects the core manipulates.  `Option` fields model
possibly-missing dict keys; reading a `none` raises KeyError (`getOpt`). -/

/-- A `link-characteristics` / `path_characteristics` triple
`{bandwidth, loss, cost}` (spec §3: integers; numbers modelled as `ℚ`). -/
structure LinkChar where
  bandwidth : ℚ
  loss : ℚ
  cost : ℚ
  deriving DecidableEq, Repr

/-- A configured interface (after validation): `{name, addr-v4, (addr-v6),
link-characteristics}`. -/
structure Iface where
  name : String
  addrV4 : String
  addrV6? : Option String := Option.none
  lc : LinkChar
  deriving DecidableEq, Repr

/-- A configured network `{proto, prefix, prefix-len}` (field names shortened
to `pfx`/`pfxLen`; values kept as strings as in the source). -/
structure Network where
  proto : String
  pfx : String
  pfxLen : String
  deriving DecidableEq, Repr

/-- The validated configuration `self._conf` as the runtime code reads it.
`rtn-msg-*` values are already converted by `int(...)`.  `networks?` is `none`
when the input configuration had no `networks` key — `process_conf` only
stores the key when present, and `create_routing_msg` raises KeyError then. -/
structure Conf where
  id : String
  interval : Int
  jitter : Int
  holdTime : Int
  mcastV4 : String
  mcastV6 : String
  interfaces : List Iface
  networks? : Option (List Network) := Option.none
  deriving DecidableEq, Repr

/-- A `networks` element of a message: a small dict such as
`{"v4-prefix": "192.168.2.0/24"}`. -/
abbrev NetEntry : Type := List (String × String)

/-- One destination entry of a (own or advertised) per-metric FIB:
`{next-hop, networks, weight, paths}`.  `add_*_entry` creates the entry
without `weight`/`paths` when the compression dict is empty, hence the
`Option`s. -/
structure FibEntry where
  nextHop : String
  networks : List NetEntry
  weight? : Option ℚ := Option.none
  paths? : Option (List (String × String)) := Option.none
  deriving DecidableEq, Repr

/-- A per-metric FIB dict.  `dests` are the destination entries in insertion
order; `pc?` models the `'path_characteristics'` key that
`_add_all_othernodes_*` injects (by aliasing) into the per-metric dicts of a
stored message — inserted at the end of the dict, so kept apart from the
destination keys.  The core's own FIB never carries this key (`pc? = none`). -/
structure MetricDict where
  dests : List (String × FibEntry)
  pc? : Option (List (String × LinkChar)) := Option.none
  deriving DecidableEq, Repr

/-- `self.fib`: the five per-metric FIBs plus the interned
`path_characteristics` table.  (After `_init_runtime_data` the dict lacks the
`path_characteristics` key; that is unobservable — the first recalculation
replaces the whole dict — so the field is total with `[]` there.) -/
structure Fib where
  low_loss : MetricDict
  high_bandwidth : MetricDict
  bw_and_loss : MetricDict
  no_cost : MetricDict
  bw_and_cost : MetricDict
  path_characteristics : List (String × LinkChar)
  deriving DecidableEq, Repr

/-- The FIB with all six sub-dicts empty. -/
def Fib.empty : Fib :=
  ⟨⟨[], Option.none⟩, ⟨[], Option.none⟩, ⟨[], Option.none⟩, ⟨[], Option.none⟩,
    ⟨[], Option.none⟩, []⟩

/-- The `routingpaths` key of a message: absent, the empty dict, or a full
FIB copy as `create_routing_msg` produces it (all six keys present). -/
inductive RPathsField where
  | missing
  | emptyDict
  | full (f : Fib)
  deriving DecidableEq, Repr

/-- A route packet as a structured object.  `Option` fields model
possibly-missing keys.  (A key present with value `None` is conflated with a
missing key; no claim distinguishes the two.) -/
structure Msg where
  id? : Option String := Option.none
  seqNo? : Option Int := Option.none
  origV4? : Option String := Option.none
  origV6? : Option String := Option.none
  networks? : Option (List NetEntry) := Option.none
  routingpaths? : RPathsField := .missing
  deriving DecidableEq, Repr

/-- A neighbour record `{rx-time, msg}` in the per-interface `rx-msg-db`. -/
structure NbrRec where
  rxTime : ℚ
  msg : Msg
  deriving DecidableEq, Repr

/-- Per-interface runtime data: `{sequence-no-tx, rx-msg-db}`. -/
structure IfaceRtd where
  seqNoTx : Int
  rxMsgDb : List (String × NbrRec)
  deriving DecidableEq, Repr

/-- `self._rtd`: the per-interface runtime containers. -/
structure Rtd where
  interfaces : List (String × IfaceRtd)
  deriving DecidableEq, Repr

/-- One emitted routing-table row `{proto, prefix, prefix-len, interface,
next-hop}` (the next-hop may be Python `None` when the sender vanished from
the rx-msg-db). -/
structure RTEntry where
  proto : String
  pfx : String
  pfxLen : String
  iface : String
  nextHop : Option String
  deriving DecidableEq, Repr

/-- `self._routing_table`: the five emitted tables, keyed `lowest-loss`,
`highest-bandwidth`, `formular_bw_loss`, `no-cost`, `filtered-bw-cost`. -/
structure RT where
  lowestLoss : List RTEntry
  highestBandwidth : List RTEntry
  formularBwLoss : List RTEntry
  noCost : List RTEntry
  filteredBwCost : List RTEntry
  deriving DecidableEq, Repr

/-- The mutable state of a `DMPR` instance that the claims mention. -/
structure State where
  started : Bool
  rtd : Rtd
  fib : Fib
  routingTable : Option RT
  nextTxTime : Option ℚ
  transmittedNow : Bool
  deriving DecidableEq, Repr

/-- The calls an operation made to the external callbacks. -/
structure Effects where
  installerCalls : List RT := []
  txCalls : List (String × Msg) := []
  deriving DecidableEq, Repr

/-- No callback was invoked. -/
def noEffects : Effects := {}

/-! ## `_calc_neigh_routing_paths` — the topology synthesizer (C5 of the spec)

The Python loop mutates, via aliasing, the per-metric dicts of every stored
message with a non-empty `routingpaths` (the `'path_characteristics'` key is
injected into each of them) while it builds the working structure, so the
embedding returns both the working structure and the updated `rx-msg-db`. -/

/-- One entry of `neigh_routing_paths['neighs']`. -/
structure NeighEntry where
  nextHop : String
  networks : List NetEntry
  paths : List (String × List String)
  deriving DecidableEq, Repr

/-- The working structure `neigh_routing_paths`: direct neighbours plus the
five `othernode_paths` tables. -/
structure NRP where
  neighs : List (String × NeighEntry)
  on_low_loss : List (String × MetricDict)
  on_high_bandwidth : List (String × MetricDict)
  on_bw_and_loss : List (String × MetricDict)
  on_no_cost : List (String × MetricDict)
  on_bw_and_cost : List (String × MetricDict)
  deriving DecidableEq, Repr

/-- The freshly initialized working structure. -/
def NRP.empty : NRP := ⟨[], [], [], [], [], []⟩

/-- The aliasing side effect of the five `_add_all_othernodes_*` calls on a
stored message: each per-metric dict of its `routingpaths` receives a
`'path_characteristics'` key holding the message's top-level
`path_characteristics` table. -/
def injectFib (f : Fib) : Fib :=
  { f with
    low_loss := { f.low_loss with pc? := some f.path_characteristics }
    high_bandwidth := { f.high_bandwidth with pc? := some f.path_characteristics }
    bw_and_loss := { f.bw_and_loss with pc? := some f.path_characteristics }
    no_cost := { f.no_cost with pc? := some f.path_characteristics }
    bw_and_cost := { f.bw_and_cost with pc? := some f.path_characteristics } }

/-- `_add_all_neighs` for one `(iface, sender)` pair: record the interface in
the neighbour's edge-key list (de-duplicated), creating the entry via
`_add_neigh_entries` (which reads `msg['networks']`) when the sender is new. -/
def _add_all_neighs (conf : Conf) (iface sid : String) (rec : NbrRec) (nrp : NRP) :
    Except PyErr NRP :=
  match pyLookup sid nrp.neighs with
  | some ne => do
      let key := mkRoute conf.id sid
      let ifaces ← getOpt (pyLookup key ne.paths)
      let ifaces' := if iface ∈ ifaces then ifaces else ifaces ++ [iface]
      return { nrp with
        neighs := pyUpsert sid { ne with paths := pyUpsert key ifaces' ne.paths } nrp.neighs }
  | Option.none => do
      let nets ← getOpt rec.msg.networks?
      return { nrp with
        neighs := pyUpsert sid ⟨sid, nets, [(mkRoute conf.id sid, [iface])]⟩ nrp.neighs }

/-- Processing of one `(iface, sender)` pair in `_calc_neigh_routing_paths`:
`_add_all_neighs`, then — when `len(msg['routingpaths']) > 0` — the five
`_add_all_othernodes_*` calls, whose effect is recorded both in the working
structure and (through aliasing) in the stored message. -/
def processSender (conf : Conf) (iface sid : String) (rec : NbrRec) (nrp : NRP) :
    Except PyErr (NRP × NbrRec) := do
  let nrp₁ ← _add_all_neighs conf iface sid rec nrp
  match rec.msg.routingpaths? with
  | .missing => .error .keyError
  | .emptyDict => return (nrp₁, rec)
  | .full f =>
      let f' := injectFib f
      let nrp₂ :=
        { nrp₁ with
          on_low_loss := pyUpsert sid f'.low_loss nrp₁.on_low_loss
          on_high_bandwidth := pyUpsert sid f'.high_bandwidth nrp₁.on_high_bandwidth
          on_bw_and_loss := pyUpsert sid f'.bw_and_loss nrp₁.on_bw_and_loss
          on_no_cost := pyUpsert sid f'.no_cost nrp₁.on_no_cost
          on_bw_and_cost := pyUpsert sid f'.bw_and_cost nrp₁.on_bw_and_cost }
      return (nrp₂, { rec with msg := { rec.msg with routingpaths? := .full f' } })

/-- The inner `for sender_id, sender_data_raw in iface_data["rx-msg-db"]` loop. -/
def processDb (conf : Conf) (iface : String) (nrp : NRP) :
    List (String × NbrRec) → Except PyErr (NRP × List (String × NbrRec))
  | [] => .ok (nrp, [])
  | (sid, rec) :: rest => do
      let (n₁, rec') ← processSender conf iface sid rec nrp
      let (n₂, rest') ← processDb conf iface n₁ rest
      return (n₂, (sid, rec') :: rest')

/-- The outer `for iface, iface_data in self._rtd["interfaces"]` loop. -/
def processIfaces (conf : Conf) (nrp : NRP) :
    List (String × IfaceRtd) → Except PyErr (NRP × List (String × IfaceRtd))
  | [] => .ok (nrp, [])
  | (ifn, ifr) :: rest => do
      let (n₁, db') ← processDb conf ifn nrp ifr.rxMsgDb
      let (n₂, rest') ← processIfaces conf n₁ rest
      return (n₂, (ifn, { ifr with rxMsgDb := db' }) :: rest')

/-- `_calc_neigh_routing_paths`, returning the working structure and the
rx-msg-db as the loop leaves it. -/
def _calc_neigh_routing_paths (conf : Conf) (rtd : Rtd) : Except PyErr (NRP × Rtd) := do
  let (nrp, ifs) ← processIfaces conf NRP.empty rtd.interfaces
  return (nrp, ⟨ifs⟩)

/-! ## Phase A — per-neighbour compression and FIB seed entries -/

/-- First configured interface with the given name (the `for iface in
self._conf['interfaces']` search loops break on the first name match). -/
def findIfaceByName (ifaces : List Iface) (n : String) : Option Iface :=
  ifaces.find? (fun i => i.name = n)

/-- `_loss_path_compression`: across all interfaces on which the neighbour was
heard, keep the (first) one with strictly smallest loss.  The Python dict
always holds at most one entry, modelled as an `Option (name, loss)`. -/
def _loss_path_compression (conf : Conf) (ne : NeighEntry) : Option (String × ℚ) :=
  ne.paths.foldl (fun acc p =>
    p.2.foldl (fun acc2 nm =>
      match findIfaceByName conf.interfaces nm with
      | Option.none => acc2
      | some ifc =>
        match acc2 with
        | Option.none => some (ifc.name, ifc.lc.loss)
        | some (bn, bl) =>
          if ifc.lc.loss < bl then some (ifc.name, ifc.lc.loss) else some (bn, bl)) acc)
    Option.none

/-- `_bandwidth_path_compression`: keep the interface with strictly largest
bandwidth. -/
def _bandwidth_path_compression (conf : Conf) (ne : NeighEntry) : Option (String × ℚ) :=
  ne.paths.foldl (fun acc p =>
    p.2.foldl (fun acc2 nm =>
      match findIfaceByName conf.interfaces nm with
      | Option.none => acc2
      | some ifc =>
        match acc2 with
        | Option.none => some (ifc.name, ifc.lc.bandwidth)
        | some (bn, bv) =>
          if ifc.lc.bandwidth > bv then some (ifc.name, ifc.lc.bandwidth) else some (bn, bv)) acc)
    Option.none

/-- `_bw_and_loss_path_compression`: keep the interface with strictly smallest
`k1*(10000000/bw) + k2*loss` (the division raises on `bw = 0`). -/
def _bw_and_loss_path_compression (conf : Conf) (ne : NeighEntry) (k1 k2 : ℚ) :
    Except PyErr (Option (String × ℚ)) :=
  ne.paths.foldlM (fun acc p =>
    p.2.foldlM (fun acc2 nm =>
      match findIfaceByName conf.interfaces nm with
      | Option.none => pure acc2
      | some ifc => do
        let d ← pyDiv 10000000 ifc.lc.bandwidth
        let v := k1 * d + k2 * ifc.lc.loss
        match acc2 with
        | Option.none => pure (some (ifc.name, v))
        | some (bn, bv) =>
          pure (if v < bv then some (ifc.name, v) else some (bn, bv))) acc)
    Option.none

/-- `_no_cost_path_compression`: collect every interface with cost `0`
(the commented-out compression means the dict keeps them all). -/
def _no_cost_path_compression (conf : Conf) (ne : NeighEntry) : List (String × ℚ) :=
  ne.paths.foldl (fun acc p =>
    p.2.foldl (fun acc2 nm =>
      match findIfaceByName conf.interfaces nm with
      | Option.none => acc2
      | some ifc => if ifc.lc.cost = 0 then pyUpsert ifc.name ifc.lc.cost acc2 else acc2) acc)
    []

/-- The interface scan of `_bw_and_cost_path_compression`: its `break` sits
inside `if cost == 0:`, so a name match with non-zero cost keeps scanning the
remaining configured interfaces. -/
def bwCostScan (ifaces : List Iface) (nm : String) (acc : Option (String × ℚ)) :
    Option (String × ℚ) :=
  match ifaces with
  | [] => acc
  | ifc :: rest =>
    if ifc.name = nm then
      if ifc.lc.cost = 0 then
        match acc with
        | Option.none => some (ifc.name, ifc.lc.bandwidth)
        | some (bn, bv) =>
          if ifc.lc.bandwidth > bv then some (ifc.name, ifc.lc.bandwidth) else some (bn, bv)
      else bwCostScan rest nm acc
    else bwCostScan rest nm acc

/-- `_bw_and_cost_path_compression`: among cost-free interfaces keep the one
with strictly largest bandwidth. -/
def _bw_and_cost_path_compression (conf : Conf) (ne : NeighEntry) : Option (String × ℚ) :=
  ne.paths.foldl (fun acc p =>
    p.2.foldl (fun acc2 nm => bwCostScan conf.interfaces nm acc2) acc) Option.none

/-- The five `add_*_entry` functions share this body: create the entry with
`next-hop` and `networks`, then the loop over the (≤ 1 entry) compression dict
sets `weight` and `paths`. -/
def addCompressedEntry (conf : Conf) (nid : String) (ne : NeighEntry)
    (w : Option (String × ℚ)) (acc : List (String × FibEntry)) : List (String × FibEntry) :=
  let route := mkRoute conf.id nid
  let base : FibEntry := { nextHop := ne.nextHop, networks := ne.networks }
  let entry := match w with
    | Option.none => base
    | some (ifn, v) => { base with weight? := some v, paths? := some [(route, ifn)] }
  pyUpsert nid entry acc

/-- `add_cost_entry`: the compression dict can hold several interfaces; each
loop iteration overwrites `weight` and replaces the `paths` dict, so the last
one wins. -/
def add_cost_entry (conf : Conf) (nid : String) (ne : NeighEntry)
    (w : List (String × ℚ)) (acc : List (String × FibEntry)) : List (String × FibEntry) :=
  let route := mkRoute conf.id nid
  let base : FibEntry := { nextHop := ne.nextHop, networks := ne.networks }
  let entry := w.foldl
    (fun e p => { e with weight? := some p.2, paths? := some [(route, p.1)] }) base
  pyUpsert nid entry acc

/-! ## Phase B — single-pass relaxation through neighbours

The five `_calc_*_path` functions (`_calc_shortestloss_path`,
`_calc_widestBW_path`, `_calc_CompoundBWLoss_path`, `_calc_nocost_path`,
`_calc_filteredBWCost_path`) and their `add_*_path` / `_map_*_values` helpers
are textually identical up to the metric key (all five accept on strict
`weight_update <`), so they are embedded once. -/

/-- The loop-avoidance check: for every edge key, compare the characters at
positions 0 and 2 with the own id (IndexError on keys shorter than 3). -/
def loopCheck (selfId : String) : List (String × String) → Except PyErr Bool
  | [] => .ok false
  | (k, _) :: rest => do
      let c0 ← pyCharAt k 0
      let c2 ← pyCharAt k 2
      if c0 = selfId ∨ c2 = selfId then .ok true else loopCheck selfId rest

/-- `_map_*_values`: fill the destination entry from the advertised one. -/
def mapRelaxEntry (other_id : String) (weightUpdate : Int) (dd : FibEntry) :
    Except PyErr FibEntry := do
  let ps ← getOpt dd.paths?
  return { nextHop := other_id, networks := dd.networks,
           weight? := some (weightUpdate : ℚ), paths? := some ps }

/-- `add_*_path`: insert a new destination, or replace it when the candidate
weight is strictly smaller. -/
def addRelaxedPath (other_id : String) (weightUpdate : Int) (dest_id : String)
    (dd : FibEntry) (dests : List (String × FibEntry)) :
    Except PyErr (List (String × FibEntry)) := do
  match pyLookup dest_id dests with
  | Option.none => do
      let e ← mapRelaxEntry other_id weightUpdate dd
      return pyUpsert dest_id e dests
  | some cur => do
      let wc ← getOpt cur.weight?
      if (weightUpdate : ℚ) < wc then do
        let e ← mapRelaxEntry other_id weightUpdate dd
        return pyUpsert dest_id e dests
      else
        return dests

/-- `_calc_*_path`: for every advertising neighbour and every advertised
destination other than `'path_characteristics'` and self, extend the path by
the own edge to that neighbour and relax, skipping candidates the character
check flags as loops. -/
def relaxDests (selfId : String) (onodes : List (String × MetricDict))
    (dests0 : List (String × FibEntry)) : Except PyErr (List (String × FibEntry)) :=
  onodes.foldlM (fun dests op =>
    op.2.dests.foldlM (fun dests2 dp => do
      if dp.1 = "path_characteristics" then
        return dests2
      else if dp.1 = selfId then
        return dests2
      else do
        let curN ← getOpt (pyLookup op.1 dests2)
        let wN ← getOpt curN.weight?
        let toNeigh := pyInt wN
        let wD ← getOpt dp.2.weight?
        let weightUpdate := pyInt wD + toNeigh
        let ps ← getOpt dp.2.paths?
        let lf ← loopCheck selfId ps
        if lf then return dests2
        else addRelaxedPath op.1 weightUpdate dp.1 dp.2 dests2) dests) dests0

/-! ## Phase C — path-characteristics interning, path closure, weight rerun -/

/-- The `while True` free-number search of `_map_path_number`: smallest
decimal string from `path_num` upward that is not yet interned (the fuel is a
pigeonhole bound, never exhausted). -/
def findFreeNum (pcT : List (String × LinkChar)) : Nat → Nat → Nat
  | 0, n => n
  | fuel + 1, n =>
    if (pyLookup (toString n) pcT).isSome then findFreeNum pcT fuel (n + 1) else n

/-- `_map_path_number`: reuse the number of an equal
`{loss, bandwidth, cost}` triple, otherwise intern under the next free
number (the caller always passes `path_num = 1`). -/
def _map_path_number (pd : LinkChar) (pcT : List (String × LinkChar)) :
    String × List (String × LinkChar) :=
  match pcT.find? (fun p =>
      decide (p.2.loss = pd.loss) && decide (p.2.bandwidth = pd.bandwidth) &&
      decide (p.2.cost = pd.cost)) with
  | some p => (p.1, pcT)
  | Option.none =>
    let n := findFreeNum pcT (pcT.length + 1) 1
    (toString n, pcT ++ [(toString n, pd)])

/-- One destination of `_map_path_characteristics_*`.  The `path_num_found`
flag is set per destination and never reset between its paths, and
`path_num_new` keeps its previous value, so a path whose number is not found
is overwritten with the previously interned number once the flag is set; the
`Option String` accumulator models exactly that pair of variables. -/
def mapPathsForDest (conf : Conf) (onode : List (String × MetricDict))
    (dest_id : String) (dd : FibEntry) (pcT : List (String × LinkChar)) :
    Except PyErr (FibEntry × List (String × LinkChar)) := do
  let nh := dd.nextHop
  if dest_id ≠ nh then do
    let ps ← getOpt dd.paths?
    let (_, pcT', newPaths) ← ps.foldlM
      (fun (st : Option String × List (String × LinkChar) × List (String × String)) pp => do
        let (last?, pcT, acc) := st
        let md ← getOpt (pyLookup nh onode)
        let pinfo ← getOpt md.pc?
        let (last?, pcT) :=
          match pyLookup pp.2 pinfo with
          | some pd =>
            let (num, pcT') := _map_path_number pd pcT
            (some num, pcT')
          | Option.none => (last?, pcT)
        match last? with
        | some n => pure (some n, pcT, pyUpsert pp.1 n acc)
        | Option.none => pure (Option.none, pcT, acc))
      (Option.none, pcT, ps)
    return ({ dd with paths? := some newPaths }, pcT')
  else do
    let ps ← getOpt dd.paths?
    let (_, pcT', newPaths) ← ps.foldlM
      (fun (st : Option String × List (String × LinkChar) × List (String × String)) pp => do
        let (last?, pcT, acc) := st
        let (last?, pcT) :=
          match findIfaceByName conf.interfaces pp.2 with
          | some ifc =>
            let pd : LinkChar := ⟨ifc.lc.bandwidth, ifc.lc.loss, ifc.lc.cost⟩
            let (num, pcT') := _map_path_number pd pcT
            (some num, pcT')
          | Option.none => (last?, pcT)
        match last? with
        | some n => pure (some n, pcT, pyUpsert pp.1 n acc)
        | Option.none => pure (Option.none, pcT, acc))
      (Option.none, pcT, ps)
    return ({ dd with paths? := some newPaths }, pcT')

/-- `_map_path_characteristics_*`: rewrite every FIB entry's path values to
interned numbers, growing the shared `path_characteristics` table. -/
def mapPathCharacteristics (conf : Conf) (onode : List (String × MetricDict))
    (dests : List (String × FibEntry)) (pcT : List (String × LinkChar)) :
    Except PyErr (List (String × FibEntry) × List (String × LinkChar)) :=
  dests.foldlM (fun (st : List (String × FibEntry) × List (String × LinkChar)) p => do
      let (e', pcT') ← mapPathsForDest conf onode p.1 p.2 st.2
      return (st.1 ++ [(p.1, e')], pcT')) ([], pcT)

/-- One pass of `_add_self_to_neigh_*pathnumber`: union the next-hop
neighbour's paths into every non-neighbour destination's paths. -/
def addSelfPass (dests : List (String × FibEntry)) :
    Except PyErr (List (String × FibEntry)) :=
  dests.foldlM (fun acc p => do
      let cur ← getOpt (pyLookup p.1 acc)
      if p.1 ≠ cur.nextHop then do
        let nhE ← getOpt (pyLookup cur.nextHop acc)
        let nhPs ← getOpt nhE.paths?
        let curPs ← getOpt cur.paths?
        let newPs := nhPs.foldl (fun ps q => pyUpsert q.1 q.2 ps) curPs
        return pyUpsert p.1 { cur with paths? := some newPs } acc
      else return acc) dests

/-- `_add_self_to_neigh_*pathnumber`: the pass above runs `for i in range(2)`. -/
def addSelfToNeigh (dests : List (String × FibEntry)) :
    Except PyErr (List (String × FibEntry)) := do
  let d₁ ← addSelfPass dests
  addSelfPass d₁

/-- `_add_*weight_to_dest`: reset every weight to 0, then add the metric field
of every interned edge of the entry's paths (edges whose number is not in the
table contribute nothing). -/
def addWeightToDest (f : LinkChar → Except PyErr ℚ) (pcT : List (String × LinkChar))
    (dests : List (String × FibEntry)) : Except PyErr (List (String × FibEntry)) :=
  dests.foldlM (fun acc p => do
      let cur ← getOpt (pyLookup p.1 acc)
      let ps ← getOpt cur.paths?
      let w ← ps.foldlM (fun w q =>
          match pyLookup q.2 pcT with
          | some pd => do
            let v ← f pd
            pure (w + v)
          | Option.none => pure w) (0 : ℚ)
      return pyUpsert p.1 { cur with weight? := some w } acc) dests

/-! ## The five `_calc_fib_*` drivers -/

/-- `_calc_fib_low_loss`. -/
def _calc_fib_low_loss (conf : Conf) (nrp : NRP) (fib : Fib) : Except PyErr Fib := do
  let compressed := nrp.neighs.foldl (fun acc p =>
      addCompressedEntry conf p.1 p.2 (_loss_path_compression conf p.2) acc) []
  let fib := { fib with low_loss := ⟨compressed, Option.none⟩ }
  let dests ← if nrp.on_low_loss.length > 0 then
      relaxDests conf.id nrp.on_low_loss fib.low_loss.dests
    else pure fib.low_loss.dests
  let (dests, pcT) ← mapPathCharacteristics conf nrp.on_low_loss dests fib.path_characteristics
  let dests ← addSelfToNeigh dests
  let dests ← addWeightToDest (fun pd => pure pd.loss) pcT dests
  return { fib with low_loss := ⟨dests, Option.none⟩, path_characteristics := pcT }

/-- `_calc_fib_high_bandwidth`. -/
def _calc_fib_high_bandwidth (conf : Conf) (nrp : NRP) (fib : Fib) : Except PyErr Fib := do
  let compressed := nrp.neighs.foldl (fun acc p =>
      addCompressedEntry conf p.1 p.2 (_bandwidth_path_compression conf p.2) acc) []
  let fib := { fib with high_bandwidth := ⟨compressed, Option.none⟩ }
  let dests ← if nrp.on_high_bandwidth.length > 0 then
      relaxDests conf.id nrp.on_high_bandwidth fib.high_bandwidth.dests
    else pure fib.high_bandwidth.dests
  let (dests, pcT) ← mapPathCharacteristics conf nrp.on_high_bandwidth dests fib.path_characteristics
  let dests ← addSelfToNeigh dests
  let dests ← addWeightToDest (fun pd => pure pd.bandwidth) pcT dests
  return { fib with high_bandwidth := ⟨dests, Option.none⟩, path_characteristics := pcT }

/-- `_calc_fib_bw_and_loss` (`k1 = 1`, `k2 = 100` at the call site). -/
def _calc_fib_bw_and_loss (conf : Conf) (nrp : NRP) (fib : Fib) (k1 k2 : ℚ) :
    Except PyErr Fib := do
  let compressed ← nrp.neighs.foldlM (fun acc p => do
      let w ← _bw_and_loss_path_compression conf p.2 k1 k2
      pure (addCompressedEntry conf p.1 p.2 w acc)) []
  let fib := { fib with bw_and_loss := ⟨compressed, Option.none⟩ }
  let dests ← if nrp.on_bw_and_loss.length > 0 then
      relaxDests conf.id nrp.on_bw_and_loss fib.bw_and_loss.dests
    else pure fib.bw_and_loss.dests
  let (dests, pcT) ← mapPathCharacteristics conf nrp.on_bw_and_loss dests fib.path_characteristics
  let dests ← addSelfToNeigh dests
  let dests ← addWeightToDest
      (fun pd => do
        let d ← pyDiv 10000000 pd.bandwidth
        pure (k1 * d + k2 * pd.loss)) pcT dests
  return { fib with bw_and_loss := ⟨dests, Option.none⟩, path_characteristics := pcT }

/-- `_calc_fib_no_cost` (the entry is only created when the compression dict
is non-empty). -/
def _calc_fib_no_cost (conf : Conf) (nrp : NRP) (fib : Fib) : Except PyErr Fib := do
  let compressed := nrp.neighs.foldl (fun acc p =>
      let w := _no_cost_path_compression conf p.2
      if w.length > 0 then add_cost_entry conf p.1 p.2 w acc else acc) []
  let fib := { fib with no_cost := ⟨compressed, Option.none⟩ }
  let dests ← if nrp.on_no_cost.length > 0 then
      relaxDests conf.id nrp.on_no_cost fib.no_cost.dests
    else pure fib.no_cost.dests
  let (dests, pcT) ← mapPathCharacteristics conf nrp.on_no_cost dests fib.path_characteristics
  let dests ← addSelfToNeigh dests
  let dests ← addWeightToDest (fun pd => pure pd.cost) pcT dests
  return { fib with no_cost := ⟨dests, Option.none⟩, path_characteristics := pcT }

/-- `_calc_fib_bw_and_cost` (entry only when the compression found a cost-free
interface). -/
def _calc_fib_bw_and_cost (conf : Conf) (nrp : NRP) (fib : Fib) : Except PyErr Fib := do
  let compressed := nrp.neighs.foldl (fun acc p =>
      match _bw_and_cost_path_compression conf p.2 with
      | Option.none => acc
      | some w => addCompressedEntry conf p.1 p.2 (some w) acc) []
  let fib := { fib with bw_and_cost := ⟨compressed, Option.none⟩ }
  let dests ← if nrp.on_bw_and_cost.length > 0 then
      relaxDests conf.id nrp.on_bw_and_cost fib.bw_and_cost.dests
    else pure fib.bw_and_cost.dests
  let (dests, pcT) ← mapPathCharacteristics conf nrp.on_bw_and_cost dests fib.path_characteristics
  let dests ← addSelfToNeigh dests
  let dests ← addWeightToDest (fun pd => pure pd.bandwidth) pcT dests
  return { fib with bw_and_cost := ⟨dests, Option.none⟩, path_characteristics := pcT }

/-! ## Routing-table emission (C7 of the spec) -/

/-- `next_hop_ip_addr`: InternalException on an unknown interface, Python
`None` when the sender id has vanished from the rx-msg-db, otherwise the
originator address of the stored message. -/
def next_hop_ip_addr (rtd : Rtd) (proto router_id iface_name : String) :
    Except PyErr (Option String) :=
  match pyLookup iface_name rtd.interfaces with
  | Option.none => .error .internalException
  | some ifr =>
    match pyLookup router_id ifr.rxMsgDb with
    | Option.none => .ok Option.none
    | some rec =>
      if proto = "v4" then do
        let a ← getOpt rec.msg.origV4?
        return some a
      else if proto = "v6" then do
        let a ← getOpt rec.msg.origV6?
        return some a
      else .error .internalException

/-- The interface search of the `_calc_*_routingtable` functions: find the
interned characteristics of the given path number, then the first configured
interface whose link characteristics match per the metric's predicate. -/
def findEmitIface (conf : Conf) (pcT : List (String × LinkChar))
    (match_ : LinkChar → LinkChar → Bool) (pathNum : String) : Option String :=
  match pyLookup pathNum pcT with
  | Option.none => Option.none
  | some pd =>
    match conf.interfaces.find? (fun i => match_ i.lc pd) with
    | some i => some i.name
    | Option.none => Option.none

/-- One routing-table row for one destination and one of its networks.
`firstPathOnly` distinguishes the two break placements in the source: in
`_calc_loss_routingtable` and `_calc_bw_routingtable` the final `break` sits
inside `if path == search_key:`, so the whole paths dict is searched; in the
`bw_and_loss`, `no_cost` and `bw_and_cost` variants the `break` is aligned
with the `if`, so only the first path key is ever examined. -/
def buildRTRow (conf : Conf) (rtd : Rtd) (pcT : List (String × LinkChar))
    (match_ : LinkChar → LinkChar → Bool) (firstPathOnly : Bool)
    (dd : FibEntry) (net : NetEntry) : Except PyErr RTEntry := do
  let fields ← net.foldlM
    (fun (_ : Option (String × String × String)) kv => do
      let parts := kv.2.splitOn "/"
      let p0 ← getOpt (parts.get? 0)
      let p1 ← match parts.get? 1 with
        | some x => pure x
        | Option.none => .error .indexError
      pure (some ("v4", p0, p1))) Option.none
  let ps ← getOpt dd.paths?
  let searchKey := mkRoute conf.id dd.nextHop
  let ifn? :=
    if firstPathOnly then
      match ps with
      | [] => Option.none
      | q :: _ => if q.1 = searchKey then findEmitIface conf pcT match_ q.2 else Option.none
    else
      match ps.find? (fun q => q.1 = searchKey) with
      | some q => findEmitIface conf pcT match_ q.2
      | Option.none => Option.none
  let f ← getOpt fields
  let ifn ← getOpt ifn?
  let nh ← next_hop_ip_addr rtd f.1 dd.nextHop ifn
  return ⟨f.1, f.2.1, f.2.2, ifn, nh⟩

/-- A `_calc_*_routingtable` body: one row per destination per network. -/
def calcRoutingTable (conf : Conf) (rtd : Rtd) (pcT : List (String × LinkChar))
    (match_ : LinkChar → LinkChar → Bool) (firstPathOnly : Bool)
    (dests : List (String × FibEntry)) : Except PyErr (List RTEntry) :=
  dests.foldlM (fun acc p =>
    p.2.networks.foldlM (fun acc2 net => do
        let row ← buildRTRow conf rtd pcT match_ firstPathOnly p.2 net
        pure (acc2 ++ [row])) acc) []

/-- Interface match on loss and bandwidth (loss, bandwidth and compound
tables). -/
def matchLossBw (lc pd : LinkChar) : Bool :=
  decide (lc.loss = pd.loss) && decide (lc.bandwidth = pd.bandwidth)

/-- Interface match on cost only (`no-cost` table). -/
def matchCost (lc pd : LinkChar) : Bool :=
  decide (lc.cost = pd.cost)

/-- Interface match on cost and bandwidth (`filtered-bw-cost` table). -/
def matchCostBw (lc pd : LinkChar) : Bool :=
  decide (lc.cost = pd.cost) && decide (lc.bandwidth = pd.bandwidth)

/-- Everything `_recalculate_routing_table` does after
`_calc_neigh_routing_paths`: the five FIB builds interleaved with the five
table emissions, in source order.  It only reads the rx-msg-db (for
originator addresses), never writes it. -/
def restCore (conf : Conf) (nrp : NRP) (rtd : Rtd) : Except PyErr (Fib × RT) := do
  let fib := Fib.empty
  let fib ← _calc_fib_low_loss conf nrp fib
  let t1 ← calcRoutingTable conf rtd fib.path_characteristics matchLossBw false fib.low_loss.dests
  let fib ← _calc_fib_high_bandwidth conf nrp fib
  let t2 ← calcRoutingTable conf rtd fib.path_characteristics matchLossBw false fib.high_bandwidth.dests
  let fib ← _calc_fib_bw_and_loss conf nrp fib 1 100
  let t3 ← calcRoutingTable conf rtd fib.path_characteristics matchLossBw true fib.bw_and_loss.dests
  let fib ← _calc_fib_no_cost conf nrp fib
  let t4 ← calcRoutingTable conf rtd fib.path_characteristics matchCost true fib.no_cost.dests
  let fib ← _calc_fib_bw_and_cost conf nrp fib
  let t5 ← calcRoutingTable conf rtd fib.path_characteristics matchCostBw true fib.bw_and_cost.dests
  return (fib, ⟨t1, t2, t3, t4, t5⟩)

/-- `_recalculate_routing_table`: rebuild the FIB and routing table from the
configuration and the neighbour database; the returned `Rtd` carries the
side effect `_calc_neigh_routing_paths` has on the stored messages.  The
caller invokes the installer callback with the returned table
(`_routing_table_update`). -/
def _recalculate_routing_table (conf : Conf) (rtd : Rtd) :
    Except PyErr (Fib × RT × Rtd) := do
  let (nrp, rtd') ← _calc_neigh_routing_paths conf rtd
  let (fib, rt) ← restCore conf nrp rtd'
  return (fib, rt, rtd')

/-! ## The receive path (`msg_rx`) -/

/-- Rendering a structured message back to the generic Python value
`_cmp_packets` traverses (keys in `create_routing_msg` insertion order; only
present keys appear). -/
def netToPyVal (n : NetEntry) : PyVal :=
  .dict (n.map (fun p => (p.1, .str p.2)))

/-- A `{loss, bandwidth, cost}` dict as a Python value. -/
def lcToPyVal (lc : LinkChar) : PyVal :=
  .dict [("loss", .num lc.loss), ("bandwidth", .num lc.bandwidth), ("cost", .num lc.cost)]

/-- A `path_characteristics` table as a Python value. -/
def pcToPyVal (pcT : List (String × LinkChar)) : PyVal :=
  .dict (pcT.map (fun p => (p.1, lcToPyVal p.2)))

/-- A FIB destination entry as a Python value. -/
def FibEntry.toPyVal (e : FibEntry) : PyVal :=
  .dict ([("next-hop", .str e.nextHop),
          ("networks", .list (e.networks.map netToPyVal))]
    ++ (match e.weight? with
        | some w => [("weight", .num w)]
        | Option.none => [])
    ++ (match e.paths? with
        | some ps => [("paths", .dict (ps.map (fun p => (p.1, .str p.2))))]
        | Option.none => []))

/-- A per-metric FIB dict as a Python value (the injected
`path_characteristics` key sits at the end of the dict). -/
def MetricDict.toPyVal (m : MetricDict) : PyVal :=
  .dict (m.dests.map (fun p => (p.1, FibEntry.toPyVal p.2))
    ++ (match m.pc? with
        | some t => [("path_characteristics", pcToPyVal t)]
        | Option.none => []))

/-- The FIB as a Python value, keys in `_recalculate_routing_table` insertion
order. -/
def Fib.toPyVal (f : Fib) : PyVal :=
  .dict [("low_loss", MetricDict.toPyVal f.low_loss),
         ("high_bandwidth", MetricDict.toPyVal f.high_bandwidth),
         ("bw_and_loss", MetricDict.toPyVal f.bw_and_loss),
         ("no_cost", MetricDict.toPyVal f.no_cost),
         ("bw_and_cost", MetricDict.toPyVal f.bw_and_cost),
         ("path_characteristics", pcToPyVal f.path_characteristics)]

/-- A message as the Python dict `_cmp_packets` receives. -/
def Msg.toPyVal (m : Msg) : PyVal :=
  .dict ((match m.id? with
          | some i => [("id", .str i)]
          | Option.none => [])
    ++ (match m.seqNo? with
        | some s => [("sequence-no", .num (s : ℚ))]
        | Option.none => [])
    ++ (match m.networks? with
        | some ns => [("networks", .list (ns.map netToPyVal))]
        | Option.none => [])
    ++ (match m.origV4? with
        | some a => [("originator-addr-v4", .str a)]
        | Option.none => [])
    ++ (match m.origV6? with
        | some a => [("originator-addr-v6", .str a)]
        | Option.none => [])
    ++ (match m.routingpaths? with
        | .missing => []
        | .emptyDict => [("routingpaths", .dict [])]
        | .full f => [("routingpaths", Fib.toPyVal f)]))

/-- `_is_valid_interface`: scan all configured interfaces for the name. -/
def _is_valid_interface (conf : Conf) (iface : String) : Bool :=
  conf.interfaces.foldl (fun found i => if iface = i.name then true else found) false

/-- `_validate_rx_msg`: drop messages from unconfigured interfaces and from
ourselves (the caller already made sure `msg['id']` exists). -/
def _validate_rx_msg (conf : Conf) (mid iface : String) : Bool :=
  if !(_is_valid_interface conf iface) then false
  else if mid = conf.id then false
  else true

/-- `_rx_save_routing_data`: create or refresh the neighbour record, dropping
stale sequence numbers without touching the database, and masking
content-identical refreshes out of the recalc flag. -/
def _rx_save_routing_data (rtd : Rtd) (msg : Msg) (iface : String) (now : ℚ) :
    Except PyErr (Bool × Rtd) := do
  let sid ← getOpt msg.id?
  let ifr ← getOpt (pyLookup iface rtd.interfaces)
  match pyLookup sid ifr.rxMsgDb with
  | Option.none =>
      let db' := pyUpsert sid ⟨now, msg⟩ ifr.rxMsgDb
      return (true, ⟨pyUpsert iface { ifr with rxMsgDb := db' } rtd.interfaces⟩)
  | some rec => do
      let s0 ← getOpt rec.msg.seqNo?
      let sN ← getOpt msg.seqNo?
      if sN ≤ s0 then
        return (false, rtd)
      else do
        let dataEqual ← cmpPackets (Msg.toPyVal rec.msg) (Msg.toPyVal msg)
        let db' := pyUpsert sid ⟨now, msg⟩ ifr.rxMsgDb
        return (!dataEqual, ⟨pyUpsert iface { ifr with rxMsgDb := db' } rtd.interfaces⟩)

/-- `msg_rx`: the entry log line reads `msg['id']` and `msg['sequence-no']`
(KeyError on a malformed message), then validation, storage, and — when a
recalc is required — the rebuild followed by the installer callback. -/
def msg_rx (conf : Conf) (st : State) (iface : String) (msg : Msg) (now : ℚ) :
    Except PyErr (State × Effects) := do
  let mid ← getOpt msg.id?
  let _ ← getOpt msg.seqNo?
  if !(_validate_rx_msg conf mid iface) then
    return (st, noEffects)
  else do
    let (required, rtd₁) ← _rx_save_routing_data st.rtd msg iface now
    if required then do
      let (fib, rt, rtd₂) ← _recalculate_routing_table conf rtd₁
      return ({ st with rtd := rtd₂, fib := fib, routingTable := some rt },
              { installerCalls := [rt], txCalls := [] })
    else
      return ({ st with rtd := rtd₁ }, noEffects)

/-! ## Tick, transmission, start -/

/-- The per-interface body of `_check_outdated_route_entries`: collect the
senders with `now - rx-time > rtn-msg-hold-time` into a dellist, then delete
them. -/
def sweepDb (conf : Conf) (now : ℚ) (db : List (String × NbrRec)) :
    List String × List (String × NbrRec) :=
  let dellist := db.foldl
    (fun dl q => if now - q.2.rxTime > (conf.holdTime : ℚ) then dl ++ [q.1] else dl) []
  (dellist, dellist.foldl (fun db2 k => pyDelete k db2) db)

/-- The interface loop of `_check_outdated_route_entries` (the recursion
computes the same flag the sequential `route_recalc_required` accumulation
does). -/
def sweepIfaces (conf : Conf) (now : ℚ) :
    List (String × IfaceRtd) → Bool × List (String × IfaceRtd)
  | [] => (false, [])
  | p :: rest =>
    let sw := sweepDb conf now p.2.rxMsgDb
    let rest' := sweepIfaces conf now rest
    (!sw.1.isEmpty || rest'.1, (p.1, { p.2 with rxMsgDb := sw.2 }) :: rest'.2)

/-- `_check_outdated_route_entries`: age the neighbour database; the flag says
whether any record was deleted. -/
def _check_outdated_route_entries (conf : Conf) (now : ℚ) (rtd : Rtd) : Bool × Rtd :=
  let step := sweepIfaces conf now rtd.interfaces
  (step.1, ⟨step.2⟩)

/-- `conf_originator_addr_by_iface_v4`: first configured interface with the
name, else Python `None`. -/
def conf_originator_addr_by_iface_v4 (conf : Conf) (iface : String) : Option String :=
  (conf.interfaces.find? (fun i => i.name = iface)).map Iface.addrV4

/-- `create_routing_msg`: compose the advertisement for one interface and
increment its tx sequence number.  Reading `self._conf["networks"]` raises
KeyError when the configuration was registered without a `networks` key. -/
def create_routing_msg (conf : Conf) (rtd : Rtd) (fib : Fib) (iface : String) :
    Except PyErr (Msg × Rtd) := do
  let ifr ← getOpt (pyLookup iface rtd.interfaces)
  let seq := ifr.seqNoTx
  let rtd' : Rtd := ⟨pyUpsert iface { ifr with seqNoTx := seq + 1 } rtd.interfaces⟩
  let orig := conf_originator_addr_by_iface_v4 conf iface
  let nets ← getOpt conf.networks?
  let netEntries := (nets.filter (fun n => n.proto = "v4")).map
      (fun n => ([("v4-prefix", n.pfx ++ "/" ++ n.pfxLen)] : NetEntry))
  let rp :=
    if fib.high_bandwidth.dests.length > 0 ∨ fib.low_loss.dests.length > 0 ∨
       fib.bw_and_loss.dests.length ≠ 0 ∨ fib.no_cost.dests.length ≠ 0 ∨
       fib.bw_and_cost.dests.length > 0 then
      RPathsField.full fib
    else RPathsField.emptyDict
  return ({ id? := some conf.id, seqNo? := some seq, origV4? := orig,
            networks? := some netEntries, routingpaths? := rp }, rtd')

/-- The `for interface_name in self._rtd["interfaces"]` loop of
`tx_route_packet`: the key list is fixed at loop entry, the sequence-number
increments thread through `rtd`. -/
def txLoop (conf : Conf) (fib : Fib) (rtd : Rtd) :
    List (String × IfaceRtd) → Except PyErr (Rtd × List (String × Msg))
  | [] => .ok (rtd, [])
  | p :: rest => do
    let c ← create_routing_msg conf rtd fib p.1
    let r3 ← txLoop conf fib c.2 rest
    return (r3.1, (p.1, c.1) :: r3.2)

/-- `tx_route_packet`: one advertisement per configured interface, each handed
to the v4 multicast transmit callback. -/
def tx_route_packet (conf : Conf) (st : State) :
    Except PyErr (State × List (String × Msg)) := do
  let res ← txLoop conf st.fib st.rtd st.rtd.interfaces
  return ({ st with rtd := res.1 }, res.2)

/-- `_calc_next_tx_time`: interval 0 on the very first scheduling (after
`start`), else `rtn-msg-interval`; plus the drawn jitter `r`. -/
def _calc_next_tx_time (conf : Conf) (now : ℚ) (r : Int) (st : State) : State :=
  let interval : Int := if st.nextTxTime = Option.none then 0 else conf.interval
  { st with nextTxTime := some (now + ((interval + r : Int) : ℚ)) }

/-- `tick`: ignore when not started; age the neighbour database, recalculate
and notify the installer when anything was dropped, then transmit when the
scheduled time has been reached (comparing against a `None` schedule would
raise TypeError). -/
def tick (conf : Conf) (now : ℚ) (r : Int) (st : State) :
    Except PyErr (State × Effects) := do
  if st.started = false then
    return (st, noEffects)
  else do
    let sw := _check_outdated_route_entries conf now st.rtd
    let s1 ←
      if sw.1 then do
        let t ← _recalculate_routing_table conf sw.2
        pure (({ st with rtd := t.2.2, fib := t.1, routingTable := some t.2.1 },
               ({ installerCalls := [t.2.1], txCalls := [] } : Effects)))
      else
        pure (({ st with rtd := sw.2 }, noEffects))
    let tn ← match s1.1.nextTxTime with
      | some t => pure t
      | Option.none => .error .typeError
    if now ≥ tn then do
      let r2 ← tx_route_packet conf s1.1
      let st₃ := _calc_next_tx_time conf now r r2.1
      return ({ st₃ with transmittedNow := true }, { s1.2 with txCalls := r2.2 })
    else
      return ({ s1.1 with transmittedNow := false }, s1.2)

/-- `_init_runtime_data`: fresh per-interface containers and an empty FIB. -/
def _init_runtime_data (conf : Conf) (st : State) : State :=
  let ifs := conf.interfaces.foldl (fun acc i => pyUpsert i.name ⟨0, []⟩ acc) []
  { st with rtd := ⟨ifs⟩, fib := Fib.empty }

/-- `start`: the clock/callback/conf asserts are outside the model (the `conf`
argument stands for the registered configuration); `assert(self._routing_table
== None)` is kept; then runtime init and the first (interval-0) scheduling. -/
def start (conf : Conf) (now : ℚ) (r : Int) (st : State) : Except PyErr State := do
  if st.routingTable ≠ Option.none then .error .assertionError
  else
    let st₁ := _init_runtime_data conf st
    let st₂ := _calc_next_tx_time conf now r st₁
    return { st₂ with started := true }

/-! ## Configuration intake (`register_configuration` / `process_conf`)

The input configuration is a dict; `Option` fields model missing keys.  The
values of `rtn-msg-*` are modelled after `int(...)` conversion (with their
defaults 30 / 7 / 90), link characteristics as number triples.  A present key
holding `None` is conflated with a missing key, and the `isinstance` type
checks are outside the model — claim C5 only exercises missing keys. -/

/-- An `interfaces` element of the input configuration. -/
structure InIface where
  name? : Option String := Option.none
  addrV4? : Option String := Option.none
  addrV6? : Option String := Option.none
  lc? : Option LinkChar := Option.none
  deriving DecidableEq, Repr

/-- A `networks` element of the input configuration. -/
structure InNetwork where
  proto? : Option String := Option.none
  pfx? : Option String := Option.none
  pfxLen? : Option String := Option.none
  deriving DecidableEq, Repr

/-- The input configuration dict. -/
structure InConf where
  id? : Option String := Option.none
  interval? : Option Int := Option.none
  jitter? : Option Int := Option.none
  holdTime? : Option Int := Option.none
  mcastV4? : Option String := Option.none
  mcastV6? : Option String := Option.none
  interfaces? : Option (List InIface) := Option.none
  networks? : Option (List InNetwork) := Option.none
  deriving DecidableEq, Repr

/-- `self._conf` as `process_conf` builds it field by field; on a raise the
fields assigned so far keep their values. -/
structure ConfStore where
  interval? : Option Int := Option.none
  jitter? : Option Int := Option.none
  holdTime? : Option Int := Option.none
  id? : Option String := Option.none
  interfaces? : Option (List InIface) := Option.none
  networks? : Option (List InNetwork) := Option.none
  mcastV4? : Option String := Option.none
  mcastV6? : Option String := Option.none
  deriving DecidableEq, Repr

/-- An input dict with no keys at all (Python falsy — `assert(configuration)`
fires). -/
def InConf.isEmpty (c : InConf) : Bool :=
  c.id?.isNone && c.interval?.isNone && c.jitter?.isNone && c.holdTime?.isNone &&
  c.mcastV4?.isNone && c.mcastV6?.isNone && c.interfaces?.isNone && c.networks?.isNone

/-- The per-interface validation loop: missing `name` or `addr-v4` raises (the
already-visited prefix keeps its defaulted link characteristics); a missing
`link-characteristics` is defaulted to `{5000, 0, 0}` with a warning. -/
def checkIfaces : List InIface → List InIface × Option PyErr
  | [] => ([], Option.none)
  | i :: rest =>
    if i.name?.isNone then (i :: rest, some .configurationException)
    else if i.addrV4?.isNone then (i :: rest, some .configurationException)
    else
      let i' := if i.lc?.isNone then { i with lc? := some ⟨5000, 0, 0⟩ } else i
      let (rest', e) := checkIfaces rest
      (i' :: rest', e)

/-- The per-network validation loop: every entry needs `proto`, `prefix` and
`prefix-len`. -/
def checkNetworks : List InNetwork → Option PyErr
  | [] => Option.none
  | n :: rest =>
    if n.proto?.isNone then some .configurationException
    else if n.pfx?.isNone then some .configurationException
    else if n.pfxLen?.isNone then some .configurationException
    else checkNetworks rest

/-- The final two checks of `process_conf`: both multicast tx addresses must
be present. -/
def process_conf_tail (c : InConf) (s : ConfStore) : ConfStore × Option PyErr :=
  match c.mcastV4? with
  | Option.none => (s, some .configurationException)
  | some m4 =>
    let s := { s with mcastV4? := some m4 }
    match c.mcastV6? with
    | Option.none => (s, some .configurationException)
    | some m6 => ({ s with mcastV6? := some m6 }, Option.none)

/-- `process_conf`: `self._conf = {}` is the fresh store below; fields are
assigned in source order, and a ConfigurationException leaves the store
partially populated. -/
def process_conf (c : InConf) : ConfStore × Option PyErr :=
  let s : ConfStore :=
    { interval? := some (c.interval?.getD 30),
      jitter? := some (c.jitter?.getD 7),
      holdTime? := some (c.holdTime?.getD 90) }
  match c.id? with
  | Option.none => (s, some .configurationException)
  | some cid =>
    let s := { s with id? := some cid }
    match c.interfaces? with
    | Option.none => (s, some .configurationException)
    | some ifs =>
      let s := { s with interfaces? := some ifs }
      if ifs.length = 0 then (s, some .configurationException)
      else
        let (ifs2, e) := checkIfaces ifs
        let s := { s with interfaces? := some ifs2 }
        match e with
        | some err => (s, some err)
        | Option.none =>
          match c.networks? with
          | Option.none => process_conf_tail c s
          | some ns =>
            match checkNetworks ns with
            | some err => (s, some err)
            | Option.none => process_conf_tail c { s with networks? := some ns }

/-- `register_configuration`: `assert(configuration)` rejects the empty dict
before `process_conf` touches `self._conf`; afterwards the store holds
whatever `process_conf` assigned, even when it raised. -/
def register_configuration (st : Option ConfStore) (c : InConf) :
    Option ConfStore × Option PyErr :=
  if c.isEmpty then (st, some .assertionError)
  else
    let (s, e) := process_conf c
    (some s, e)

/-! ## Concrete instances used by the evaluation theorems and witnesses -/

/-- A node with the two-character id `"AB"` and one cost-free interface. -/
def exConf : Conf :=
  { id := "AB", interval := 30, jitter := 7, holdTime := 90,
    mcastV4 := "224.0.1.1", mcastV6 := "ff05::2",
    interfaces := [⟨"w0", "10.0.0.1", Option.none, ⟨5000, 0, 0⟩⟩],
    networks? := some [] }

/-- An advertisement payload from neighbour `C`: destination `D` reachable
over the edge `"C>AB"` — a path through `AB` itself. -/
def exAdvFib : Fib :=
  { low_loss := ⟨[("D", { nextHop := "D", networks := [], weight? := some 1,
                          paths? := some [("C>AB", "1")] })], Option.none⟩,
    high_bandwidth := ⟨[], Option.none⟩,
    bw_and_loss := ⟨[], Option.none⟩,
    no_cost := ⟨[], Option.none⟩,
    bw_and_cost := ⟨[], Option.none⟩,
    path_characteristics := [("1", ⟨5000, 1, 0⟩)] }

/-- The stored message from `C` carrying `exAdvFib`. -/
def exMsgC : Msg :=
  { id? := some "C", seqNo? := some 1, origV4? := some "10.0.0.2",
    networks? := some [], routingpaths? := .full exAdvFib }

/-- A neighbour database with `C` heard on `w0`. -/
def exRtd : Rtd := ⟨[("w0", ⟨0, [("C", ⟨0, exMsgC⟩)]⟩)]⟩

/-- A started instance holding `exRtd`. -/
def exState : State :=
  { started := true, rtd := exRtd, fib := Fib.empty, routingTable := Option.none,
    nextTxTime := some 1000, transmittedNow := false }

/-- The low-loss FIB paths of a destination, as produced by a recalculation. -/
def lowLossPathKeys (r : Except PyErr (Fib × RT × Rtd)) (d : String) :
    Option (List String) :=
  match r with
  | .ok t => ((pyLookup d t.1.low_loss.dests).bind FibEntry.paths?).map
      (fun ps => ps.map Prod.fst)
  | .error _ => Option.none

/-- The result triple of a successful recalculation (junk on error). -/
def okTriple (r : Except PyErr (Fib × RT × Rtd)) : Fib × RT × Rtd :=
  match r with
  | .ok t => t
  | .error _ => (Fib.empty, ⟨[], [], [], [], []⟩, ⟨[]⟩)

/-! ## General lemmas -/

@[simp] theorem except_bind_ok {α β : Type} (a : α) (f : α → Except PyErr β) :
    (Except.ok a >>= f) = f a := rfl

@[simp] theorem except_bind_error {α β : Type} (e : PyErr) (f : α → Except PyErr β) :
    ((Except.error e : Except PyErr α) >>= f) = .error e := rfl

@[simp] theorem except_pure {α : Type} (a : α) : (pure a : Except PyErr α) = .ok a := rfl

/-! ## Claim C5 — configuration intake -/

theorem checkIfaces_err_shape : ∀ l : List InIface,
    (checkIfaces l).2 = Option.none ∨ (checkIfaces l).2 = some PyErr.configurationException := by
  intro l
  induction l with
  | nil => simp [checkIfaces]
  | cons i rest ih =>
    by_cases h1 : i.name?.isNone <;> by_cases h2 : i.addrV4?.isNone <;>
      simp [checkIfaces, h1, h2, ih]

theorem checkIfaces_ok : ∀ l : List InIface, (checkIfaces l).2 = Option.none →
    ∀ i ∈ l, i.name?.isSome ∧ i.addrV4?.isSome := by
  intro l
  induction l with
  | nil => simp
  | cons i rest ih =>
    intro h j hj
    by_cases h1 : i.name?.isNone
    · simp [checkIfaces, h1] at h
    · by_cases h2 : i.addrV4?.isNone
      · simp [checkIfaces, h1, h2] at h
      · simp [checkIfaces, h1, h2] at h
        rcases List.mem_cons.mp hj with rfl | hj
        · simp only [Option.isNone_iff_eq_none] at h1 h2
          exact ⟨Option.isSome_iff_ne_none.mpr h1, Option.isSome_iff_ne_none.mpr h2⟩
        · exact ih h j hj

theorem checkNetworks_err_shape : ∀ l : List InNetwork,
    checkNetworks l = Option.none ∨ checkNetworks l = some PyErr.configurationException := by
  intro l
  induction l with
  | nil => simp [checkNetworks]
  | cons n rest ih =>
    by_cases h1 : n.proto?.isNone <;> by_cases h2 : n.pfx?.isNone <;>
      by_cases h3 : n.pfxLen?.isNone <;> simp [checkNetworks, h1, h2, h3, ih]

theorem checkNetworks_ok : ∀ l : List InNetwork, checkNetworks l = Option.none →
    ∀ n ∈ l, n.proto?.isSome ∧ n.pfx?.isSome ∧ n.pfxLen?.isSome := by
  intro l
  induction l with
  | nil => simp
  | cons n rest ih =>
    intro h m hm
    by_cases h1 : n.proto?.isNone
    · simp [checkNetworks, h1] at h
    · by_cases h2 : n.pfx?.isNone
      · simp [checkNetworks, h1, h2] at h
      · by_cases h3 : n.pfxLen?.isNone
        · simp [checkNetworks, h1, h2, h3] at h
        · simp [checkNetworks, h1, h2, h3] at h
          rcases List.mem_cons.mp hm with rfl | hm
          · simp only [Option.isNone_iff_eq_none] at h1 h2 h3
            exact ⟨Option.isSome_iff_ne_none.mpr h1, Option.isSome_iff_ne_none.mpr h2,
              Option.isSome_iff_ne_none.mpr h3⟩
          · exact ih h m hm

theorem process_conf_tail_err_shape (c : InConf) (s : ConfStore) :
    (process_conf_tail c s).2 = Option.none ∨
    (process_conf_tail c s).2 = some PyErr.configurationException := by
  unfold process_conf_tail
  rcases c.mcastV4? with _ | m4
  · simp
  · rcases c.mcastV6? with _ | m6 <;> simp

theorem process_conf_tail_ok (c : InConf) (s : ConfStore)
    (h : (process_conf_tail c s).2 = Option.none) :
    c.mcastV4?.isSome ∧ c.mcastV6?.isSome := by
  unfold process_conf_tail at h
  split at h
  · simp at h
  · split at h
    · simp at h
    · simp_all

theorem process_conf_err_shape (c : InConf) :
    (process_conf c).2 = Option.none ∨
    (process_conf c).2 = some PyErr.configurationException := by
  unfold process_conf
  rcases c.id? with _ | cid
  · simp
  · rcases c.interfaces? with _ | ifs
    · simp
    · by_cases hlen : ifs.length = 0
      · simp [hlen]
      · simp only [hlen, if_false]
        rcases he : (checkIfaces ifs).2 with _ | err
        · rcases c.networks? with _ | ns
          · simpa using process_conf_tail_err_shape c _
          · rcases hne : checkNetworks ns with _ | nerr
            · simpa [hne] using process_conf_tail_err_shape c _
            · rcases checkNetworks_err_shape ns with hsh | hsh <;> rw [hne] at hsh
              · cases hsh
              · injection hsh with hsh
                subst hsh
                simp [hne]
        · rcases checkIfaces_err_shape ifs with hsh | hsh <;> rw [he] at hsh
          · cases hsh
          · injection hsh with hsh
            subst hsh
            simp [he]

theorem process_conf_ok (c : InConf) (h : (process_conf c).2 = Option.none) :
    c.id?.isSome ∧
    (∃ l, c.interfaces? = some l ∧ l ≠ [] ∧
      ∀ i ∈ l, i.name?.isSome ∧ i.addrV4?.isSome) ∧
    (∀ l, c.networks? = some l →
      ∀ n ∈ l, n.proto?.isSome ∧ n.pfx?.isSome ∧ n.pfxLen?.isSome) ∧
    c.mcastV4?.isSome ∧ c.mcastV6?.isSome := by
  unfold process_conf at h
  split at h
  · simp at h
  · rename_i cid hid
    split at h
    · simp at h
    · rename_i ifs hif
      split at h
      · simp at h
      · rename_i hlen
        split at h
        rename_i ifs2 e heq
        split at h
        · simp at h
        · have he : (checkIfaces ifs).2 = Option.none := by rw [heq]
          split at h
          · rename_i hnet
            obtain ⟨hm4, hm6⟩ := process_conf_tail_ok c _ h
            refine ⟨by simp [hid], ⟨ifs, hif, by simpa using hlen, checkIfaces_ok ifs he⟩,
              ?_, hm4, hm6⟩
            intro l hl
            rw [hnet] at hl
            cases hl
          · rename_i ns hnet
            split at h
            · simp at h
            · rename_i hne
              obtain ⟨hm4, hm6⟩ := process_conf_tail_ok c _ h
              refine ⟨by simp [hid], ⟨ifs, hif, by simpa using hlen, checkIfaces_ok ifs he⟩,
                ?_, hm4, hm6⟩
              intro l hl
              rw [hnet] at hl
              injection hl with hl
              subst hl
              exact checkNetworks_ok ns hne

/-- Claim C5, amended part: a configuration missing any of the listed fields
makes `register_configuration` raise a ConfigurationException (for any
non-empty input dict; the empty dict instead trips `assert(configuration)`),
and the store afterwards holds exactly what `process_conf` assigned before the
raise — the fresh, partially populated dict of this call, not the previous
registration. -/
theorem c5_missing_fields_raise (st : Option ConfStore) (c : InConf)
    (hne : c.isEmpty = false)
    (hbad : c.id? = Option.none ∨ c.interfaces? = Option.none ∨ c.interfaces? = some [] ∨
      (∃ l i, c.interfaces? = some l ∧ i ∈ l ∧ (i.name? = Option.none ∨ i.addrV4? = Option.none)) ∨
      (∃ l n, c.networks? = some l ∧ n ∈ l ∧
        (n.proto? = Option.none ∨ n.pfx? = Option.none ∨ n.pfxLen? = Option.none)) ∨
      c.mcastV4? = Option.none ∨ c.mcastV6? = Option.none) :
    (register_configuration st c).2 = some PyErr.configurationException ∧
    (register_configuration st c).1 = some (process_conf c).1 := by
  have hreg : (register_configuration st c).2 = (process_conf c).2 := by
    simp [register_configuration, hne]
  refine ⟨?_, by simp [register_configuration, hne]⟩
  rw [hreg]
  rcases process_conf_err_shape c with hok | herr
  · exfalso
    obtain ⟨hid, ⟨l, hl, hlne, hifs⟩, hnets, hm4, hm6⟩ := process_conf_ok c hok
    rcases hbad with h | h | h | ⟨l', i, hl', hi, hbadi⟩ | ⟨l', n, hl', hn, hbadn⟩ | h | h
    · rw [h] at hid; simp at hid
    · rw [h] at hl; cases hl
    · rw [h] at hl; injection hl with hl; subst hl; exact hlne rfl
    · rw [hl'] at hl; injection hl with hl; subst hl
      have := hifs i hi
      rcases hbadi with hb | hb <;> rw [hb] at this <;> simp at this
    · have := hnets l' hl' n hn
      rcases hbadn with hb | hb | hb <;> rw [hb] at this <;> simp at this
    · rw [h] at hm4; simp at hm4
    · rw [h] at hm6; simp at hm6
  · exact herr

/-- The concrete input for the C5 counterexample: a non-empty configuration
missing `id`. -/
def c5Bad : InConf := { mcastV4? := some "224.0.1.1" }

/-- Claim C5, counterexample: the raise happens as claimed, but afterwards the
stored configuration is a partially populated dict — exactly the three
`rtn-msg-*` defaults assigned before the `id` check fired (in particular the
supplied multicast-v4 address is NOT among them) — so the core does not
remain unregistered. -/
theorem c5_counterexample :
    (register_configuration Option.none c5Bad).2 = some PyErr.configurationException ∧
    (register_configuration Option.none c5Bad).1 =
      some { interval? := some 30, jitter? := some 7, holdTime? := some 90 } := by
  decide

/-- The concrete input for the C5 witness: missing interfaces. -/
def c5W : InConf := { id? := some "A", mcastV4? := some "224.0.1.1" }

/-- Witness for the amended C5 theorem at a concrete input. -/
theorem c5_missing_fields_raise_witness :
    c5W.isEmpty = false ∧
    (register_configuration Option.none c5W).2 = some PyErr.configurationException ∧
    (register_configuration Option.none c5W).1 = some (process_conf c5W).1 := by
  have h := c5_missing_fields_raise Option.none c5W (by decide) (Or.inr (Or.inl rfl))
  exact ⟨by decide, h.1, h.2⟩

/-! ## Claims C2, C3, C9 — the receive path -/

/-- Claim C2, counterexample: a message object without the `id` key makes
`msg_rx` raise KeyError in its entry log line — the core does crash on such
wire input. -/
theorem c2_counterexample :
    msg_rx exConf exState "w0" ({} : Msg) 0 = .error .keyError := by decide

/-- Claim C2, amended: `msg_rx` returns normally — dropping the message and
leaving state, FIB and callbacks untouched — for advertisements from an
unconfigured interface, from self, or with a stale sequence number, provided
the message object carries the `id` and `sequence-no` keys (a message missing
either raises KeyError, and a stored record missing them does too). -/
theorem c2_drop_paths_return (conf : Conf) (st : State) (iface : String) (msg : Msg)
    (now : ℚ) (mid : String)
    (hid : msg.id? = some mid) (hseq : msg.seqNo?.isSome) :
    (_is_valid_interface conf iface = false →
      msg_rx conf st iface msg now = .ok (st, noEffects)) ∧
    (mid = conf.id → msg_rx conf st iface msg now = .ok (st, noEffects)) ∧
    (∀ ifr rec s0 sN,
      pyLookup iface st.rtd.interfaces = some ifr →
      pyLookup mid ifr.rxMsgDb = some rec →
      rec.msg.seqNo? = some s0 → msg.seqNo? = some sN → sN ≤ s0 →
      msg_rx conf st iface msg now = .ok (st, noEffects)) := by
  obtain ⟨sN0, hs0⟩ := Option.isSome_iff_exists.mp hseq
  refine ⟨?_, ?_, ?_⟩
  · intro hvi
    simp [msg_rx, hid, hs0, getOpt, _validate_rx_msg, hvi]
  · intro hmid
    cases hvi : _is_valid_interface conf iface <;>
      simp [msg_rx, hid, hs0, getOpt, _validate_rx_msg, hvi, hmid]
  · intro ifr rec s0 sN hlook hrec hrs hsN hle
    rw [hs0] at hsN
    injection hsN with hsN
    subst hsN
    cases hvi : _is_valid_interface conf iface
    · simp [msg_rx, hid, hs0, getOpt, _validate_rx_msg, hvi]
    · by_cases hmid : mid = conf.id
      · simp [msg_rx, hid, hs0, getOpt, _validate_rx_msg, hvi, hmid]
      · simp [msg_rx, hid, hs0, getOpt, _validate_rx_msg, hvi, hmid,
          _rx_save_routing_data, hlook, hrec, hrs, hle]

/-- The concrete witness record for the C2/C3 drop paths: the state `exState`
with its stored advertisement from `C` at sequence number 1. -/
def c2Msg : Msg := { id? := some "C", seqNo? := some 0 }

/-- Witness for the amended C2 theorem: all three drop paths at concrete
inputs (interface `x9` is unconfigured; a message with id `"AB"` is from
self; `c2Msg` carries a stale sequence number 0 ≤ 1). -/
theorem c2_drop_paths_return_witness :
    msg_rx exConf exState "x9" c2Msg 5 = .ok (exState, noEffects) ∧
    msg_rx exConf exState "w0" { c2Msg with id? := some "AB" } 5 = .ok (exState, noEffects) ∧
    msg_rx exConf exState "w0" c2Msg 5 = .ok (exState, noEffects) := by
  refine ⟨?_, ?_, ?_⟩
  · exact (c2_drop_paths_return exConf exState "x9" c2Msg 5 "C" (by decide) (by decide)).1
      (by decide)
  · exact (c2_drop_paths_return exConf exState "w0" _ 5 "AB" (by decide) (by decide)).2.1
      (by decide)
  · exact (c2_drop_paths_return exConf exState "w0" c2Msg 5 "C" (by decide)
      (by decide)).2.2 ⟨0, [("C", ⟨0, exMsgC⟩)]⟩ ⟨0, exMsgC⟩ 1 0
      (by decide) (by decide) (by decide) (by decide) (by decide)

/-- Claim C3: a message from a known sender on the same interface whose
sequence number is not strictly newer leaves the whole state — rx-time,
stored msg, FIB, routing table — unchanged and invokes no callback. -/
theorem c3_stale_seq_no_effect (conf : Conf) (st : State) (iface : String) (msg : Msg)
    (now : ℚ) (mid : String) (ifr : IfaceRtd) (rec : NbrRec) (s0 sN : Int)
    (hid : msg.id? = some mid)
    (hlook : pyLookup iface st.rtd.interfaces = some ifr)
    (hrec : pyLookup mid ifr.rxMsgDb = some rec)
    (hrs : rec.msg.seqNo? = some s0)
    (hsN : msg.seqNo? = some sN)
    (hle : sN ≤ s0) :
    msg_rx conf st iface msg now = .ok (st, noEffects) :=
  (c2_drop_paths_return conf st iface msg now mid hid (by simp [hsN])).2.2
    ifr rec s0 sN hlook hrec hrs hsN hle

/-- Witness for C3 at a concrete input (stored seq 1, received seq 0). -/
theorem c3_stale_seq_no_effect_witness :
    msg_rx exConf exState "w0" c2Msg 55 = .ok (exState, noEffects) :=
  c3_stale_seq_no_effect exConf exState "w0" c2Msg 55 "C"
    ⟨0, [("C", ⟨0, exMsgC⟩)]⟩ ⟨0, exMsgC⟩ 1 0
    (by decide) (by decide) (by decide) (by decide) (by decide) (by decide)

/-- Claim C9: a strictly newer advertisement whose payload equals the stored
one with sequence-no masked out refreshes exactly the record's rx-time and
stored msg; the FIB, routing table and schedule are untouched and no
callback fires. -/
theorem c9_identical_content_refresh (conf : Conf) (st : State) (iface : String)
    (msg : Msg) (now : ℚ) (mid : String) (ifr : IfaceRtd) (rec : NbrRec) (s0 sN : Int)
    (hid : msg.id? = some mid)
    (hvi : _validate_rx_msg conf mid iface = true)
    (hlook : pyLookup iface st.rtd.interfaces = some ifr)
    (hrec : pyLookup mid ifr.rxMsgDb = some rec)
    (hrs : rec.msg.seqNo? = some s0)
    (hsN : msg.seqNo? = some sN)
    (hgt : s0 < sN)
    (heq : cmpPackets (Msg.toPyVal rec.msg) (Msg.toPyVal msg) = .ok true) :
    msg_rx conf st iface msg now =
      .ok ({ st with rtd := ⟨pyUpsert iface
              { ifr with rxMsgDb := pyUpsert mid ⟨now, msg⟩ ifr.rxMsgDb }
              st.rtd.interfaces⟩ }, noEffects) := by
  have hnle : ¬(sN ≤ s0) := not_le.mpr hgt
  simp [msg_rx, hid, hsN, getOpt, hvi, _rx_save_routing_data, hlook, hrec, hrs,
    hnle, heq]

/-- The refreshed advertisement for the C9 witness: `exMsgC` with only the
sequence number bumped from 1 to 7. -/
def c9Msg : Msg := { exMsgC with seqNo? := some 7 }

/-! ## Claim C1 — loop avoidance and multi-character ids

The source tests `path[0]` and `path[2]` against `self.id`; a one-character
string can never equal an id of two or more characters, so with the id `"AB"`
no candidate is ever rejected and a path through self enters the FIB. -/

/-- Claim C1 is violated by the code: with self id `"AB"` (two characters),
neighbour `C` advertising destination `D` over the edge `"C>AB"` — an edge
with self as its right endpoint — is accepted into the low-loss FIB; the
recalculation succeeds and `D`'s stored paths keep that edge (the spec's rule
would have rejected the candidate). -/
theorem c1_multichar_id_loop_accepted :
    lowLossPathKeys (_recalculate_routing_table exConf exRtd) "D" =
      some ["C>AB", "AB>C"] ∧
    mkRoute "C" exConf.id = "C>AB" ∧
    2 ≤ exConf.id.length := by
  refine ⟨by decide, by decide, by decide⟩

/-! ## Claim C6 — the recalculation run twice in a row -/

theorem injectFib_idem (f : Fib) : injectFib (injectFib f) = injectFib f := rfl

theorem _add_all_neighs_congr (conf : Conf) (iface sid : String) (rec rec2 : NbrRec)
    (nrp : NRP) (h : rec.msg.networks? = rec2.msg.networks?) :
    _add_all_neighs conf iface sid rec nrp = _add_all_neighs conf iface sid rec2 nrp := by
  unfold _add_all_neighs
  rw [h]

theorem processSender_idem (conf : Conf) (iface sid : String) (rec : NbrRec)
    (nrp n' : NRP) (rec' : NbrRec)
    (h : processSender conf iface sid rec nrp = .ok (n', rec')) :
    processSender conf iface sid rec' nrp = .ok (n', rec') := by
  unfold processSender at h ⊢
  cases han : _add_all_neighs conf iface sid rec nrp with
  | error e => rw [han] at h; simp at h
  | ok nrp₁ =>
    rw [han] at h
    simp only [except_bind_ok] at h
    cases hrp : rec.msg.routingpaths? with
    | missing => rw [hrp] at h; simp at h
    | emptyDict =>
      rw [hrp] at h
      simp only [except_pure] at h
      injection h with h
      injection h with h1 h2
      subst h1; subst h2
      rw [han]
      simp [hrp]
    | full f =>
      rw [hrp] at h
      simp only [except_pure] at h
      injection h with h
      injection h with h1 h2
      subst h1; subst h2
      rw [_add_all_neighs_congr conf iface sid
        { rec with msg := { rec.msg with routingpaths? := .full (injectFib f) } } rec nrp rfl,
        han]
      simp [injectFib_idem]

theorem processDb_idem (conf : Conf) (iface : String) :
    ∀ (db : List (String × NbrRec)) (nrp n' : NRP) (db' : List (String × NbrRec)),
      processDb conf iface nrp db = .ok (n', db') →
      processDb conf iface nrp db' = .ok (n', db') := by
  intro db
  induction db with
  | nil =>
    intro nrp n' db' h
    unfold processDb at h
    injection h with h
    injection h with h1 h2
    subst h1; subst h2
    rfl
  | cons p rest ih =>
    intro nrp n' db' h
    obtain ⟨sid, rec⟩ := p
    unfold processDb at h
    cases hps : processSender conf iface sid rec nrp with
    | error e => rw [hps] at h; simp at h
    | ok q =>
      obtain ⟨n₁, rec₁⟩ := q
      rw [hps] at h
      simp only [except_bind_ok] at h
      cases hdb : processDb conf iface n₁ rest with
      | error e => rw [hdb] at h; simp at h
      | ok q2 =>
        obtain ⟨n₂, rest₁⟩ := q2
        rw [hdb] at h
        simp only [except_bind_ok, except_pure] at h
        injection h with h
        injection h with h1 h2
        subst h1; subst h2
        unfold processDb
        rw [processSender_idem conf iface sid rec nrp n₁ rec₁ hps]
        simp only [except_bind_ok]
        rw [ih n₁ n₂ rest₁ hdb]
        rfl

theorem processIfaces_idem (conf : Conf) :
    ∀ (l : List (String × IfaceRtd)) (nrp n' : NRP) (l' : List (String × IfaceRtd)),
      processIfaces conf nrp l = .ok (n', l') →
      processIfaces conf nrp l' = .ok (n', l') := by
  intro l
  induction l with
  | nil =>
    intro nrp n' l' h
    unfold processIfaces at h
    injection h with h
    injection h with h1 h2
    subst h1; subst h2
    rfl
  | cons p rest ih =>
    intro nrp n' l' h
    obtain ⟨ifn, ifr⟩ := p
    unfold processIfaces at h
    cases hdb : processDb conf ifn nrp ifr.rxMsgDb with
    | error e => rw [hdb] at h; simp at h
    | ok q =>
      obtain ⟨n₁, db'⟩ := q
      rw [hdb] at h
      simp only [except_bind_ok] at h
      cases hrest : processIfaces conf n₁ rest with
      | error e => rw [hrest] at h; simp at h
      | ok q2 =>
        obtain ⟨n₂, rest'⟩ := q2
        rw [hrest] at h
        simp only [except_bind_ok, except_pure] at h
        injection h with h
        injection h with h1 h2
        subst h1; subst h2
        unfold processIfaces
        rw [processDb_idem conf ifn ifr.rxMsgDb nrp n₁ db' hdb]
        simp only [except_bind_ok]
        rw [ih n₁ n₂ rest' hrest]
        rfl

theorem calc_neigh_routing_paths_idem (conf : Conf) (rtd : Rtd) (nrp : NRP) (rtd' : Rtd)
    (h : _calc_neigh_routing_paths conf rtd = .ok (nrp, rtd')) :
    _calc_neigh_routing_paths conf rtd' = .ok (nrp, rtd') := by
  unfold _calc_neigh_routing_paths at h ⊢
  cases hp : processIfaces conf NRP.empty rtd.interfaces with
  | error e => rw [hp] at h; simp at h
  | ok q =>
    obtain ⟨n₁, ifs⟩ := q
    rw [hp] at h
    simp only [except_bind_ok, except_pure] at h
    injection h with h
    injection h with h1 h2
    subst h1
    have hifs : rtd'.interfaces = ifs := by rw [← h2]
    rw [hifs, processIfaces_idem conf rtd.interfaces NRP.empty n₁ ifs hp]
    simp only [except_bind_ok, except_pure]
    rw [← h2]

/-- Claim C6: the FIB and the routing table are a function of the
configuration and the neighbour database only; running
`_recalculate_routing_table` a second time, on the state the first run left
behind, returns exactly the same FIB, routing table and database. -/
theorem c6_recalc_idempotent (conf : Conf) (rtd : Rtd) (fib : Fib) (rt : RT) (rtd' : Rtd)
    (h : _recalculate_routing_table conf rtd = .ok (fib, rt, rtd')) :
    _recalculate_routing_table conf rtd' = .ok (fib, rt, rtd') := by
  unfold _recalculate_routing_table at h ⊢
  cases hc : _calc_neigh_routing_paths conf rtd with
  | error e => rw [hc] at h; simp at h
  | ok q =>
    obtain ⟨nrp, rtd₁⟩ := q
    rw [hc] at h
    simp only [except_bind_ok] at h
    cases hr : restCore conf nrp rtd₁ with
    | error e => rw [hr] at h; simp at h
    | ok q2 =>
      obtain ⟨fib₁, rt₁⟩ := q2
      rw [hr] at h
      simp only [except_bind_ok, except_pure] at h
      injection h with h
      injection h with h1 h2
      injection h2 with h2 h3
      subst h1; subst h2; subst h3
      rw [calc_neigh_routing_paths_idem conf rtd nrp rtd₁ hc]
      simp only [except_bind_ok]
      rw [hr]
      rfl

/-- Witness for C6: the recalculation over `exRtd` run twice in a row. -/
theorem c6_recalc_idempotent_witness :
    _recalculate_routing_table exConf exRtd =
      .ok (okTriple (_recalculate_routing_table exConf exRtd)) ∧
    _recalculate_routing_table exConf
        (okTriple (_recalculate_routing_table exConf exRtd)).2.2 =
      .ok (okTriple (_recalculate_routing_table exConf exRtd)) :=
  ⟨by decide,
   c6_recalc_idempotent exConf exRtd
     (okTriple (_recalculate_routing_table exConf exRtd)).1
     (okTriple (_recalculate_routing_table exConf exRtd)).2.1
     (okTriple (_recalculate_routing_table exConf exRtd)).2.2
     (by decide)⟩

/-! ## Claims C7, C8 — hold-time eviction, scheduling, transmission -/

theorem pyLookup_map {α β : Type} (g : α → β) (k : String) :
    ∀ l : List (String × α),
      pyLookup k (l.map (fun p => (p.1, g p.2))) = (pyLookup k l).map g := by
  intro l
  induction l with
  | nil => simp [pyLookup]
  | cons p rest ih =>
    by_cases h : p.1 = k <;> simp [pyLookup, h, ih]

theorem dellist_foldl (conf : Conf) (now : ℚ) :
    ∀ (db : List (String × NbrRec)) (acc : List String),
      db.foldl (fun dl q => if now - q.2.rxTime > (conf.holdTime : ℚ) then dl ++ [q.1] else dl) acc =
        acc ++ (db.filter (fun q => decide (now - q.2.rxTime > (conf.holdTime : ℚ)))).map Prod.fst := by
  intro db
  induction db with
  | nil => simp
  | cons q rest ih =>
    intro acc
    by_cases h : now - q.2.rxTime > (conf.holdTime : ℚ) <;>
      simp [List.filter_cons, h, ih]

theorem delete_foldl :
    ∀ (dl : List String) (db : List (String × NbrRec)),
      dl.foldl (fun db2 k => pyDelete k db2) db =
        db.filter (fun q => decide (q.1 ∉ dl)) := by
  intro dl
  induction dl with
  | nil => intro db; simp
  | cons k rest ih =>
    intro db
    simp only [List.foldl_cons]
    rw [ih]
    unfold pyDelete
    rw [List.filter_filter]
    apply List.filter_congr
    intro a _
    by_cases h1 : a.1 = k <;> by_cases h2 : a.1 ∈ rest <;> simp [h1, h2]

theorem sweepDb_snd (conf : Conf) (now : ℚ) (db : List (String × NbrRec))
    (hnd : (db.map Prod.fst).Nodup) :
    (sweepDb conf now db).2 =
      db.filter (fun q => decide (¬(now - q.2.rxTime > (conf.holdTime : ℚ)))) := by
  unfold sweepDb
  simp only
  rw [delete_foldl, dellist_foldl conf now db []]
  simp only [List.nil_append]
  apply List.filter_congr
  intro a ha
  by_cases hexp : now - a.2.rxTime > (conf.holdTime : ℚ)
  · have hmem : a.1 ∈ (db.filter
        (fun q => decide (now - q.2.rxTime > (conf.holdTime : ℚ)))).map Prod.fst := by
      exact List.mem_map.mpr ⟨a, List.mem_filter.mpr ⟨ha, by simp [hexp]⟩, rfl⟩
    simp [hmem, hexp]
  · have hnotin : a.1 ∉ (db.filter
        (fun q => decide (now - q.2.rxTime > (conf.holdTime : ℚ)))).map Prod.fst := by
      intro hmem
      obtain ⟨b, hbf, hb1⟩ := List.mem_map.mp hmem
      obtain ⟨hbdb, hbexp⟩ := List.mem_filter.mp hbf
      have hba : b = a := List.inj_on_of_nodup_map hnd hbdb ha hb1
      rw [hba] at hbexp
      simp [hexp] at hbexp
    simp [hnotin, hexp]

theorem sweepDb_dellist_empty (conf : Conf) (now : ℚ) (db : List (String × NbrRec)) :
    (sweepDb conf now db).1.isEmpty = true ↔
      ∀ q ∈ db, ¬(now - q.2.rxTime > (conf.holdTime : ℚ)) := by
  unfold sweepDb
  simp only
  rw [dellist_foldl conf now db []]
  simp only [List.nil_append, List.isEmpty_iff, List.map_eq_nil_iff, List.filter_eq_nil_iff]
  simp

theorem sweepIfaces_lookup (conf : Conf) (now : ℚ) :
    ∀ (l : List (String × IfaceRtd)) (ifn : String) (ifr : IfaceRtd),
      pyLookup ifn l = some ifr →
      pyLookup ifn (sweepIfaces conf now l).2 =
        some { ifr with rxMsgDb := (sweepDb conf now ifr.rxMsgDb).2 } := by
  intro l
  induction l with
  | nil => intro ifn ifr h; simp [pyLookup] at h
  | cons p rest ih =>
    intro ifn ifr h
    by_cases hk : p.1 = ifn
    · simp only [pyLookup, if_pos hk] at h
      injection h with h
      simp [sweepIfaces, pyLookup, hk, ← h]
    · simp only [pyLookup, if_neg hk] at h
      simp [sweepIfaces, pyLookup, hk, ih ifn ifr h]

theorem sweepIfaces_fst (conf : Conf) (now : ℚ) :
    ∀ l : List (String × IfaceRtd), (sweepIfaces conf now l).1 = true ↔
      ∃ p ∈ l, ∃ q ∈ p.2.rxMsgDb, now - q.2.rxTime > (conf.holdTime : ℚ) := by
  intro l
  induction l with
  | nil => simp [sweepIfaces]
  | cons p rest ih =>
    simp only [sweepIfaces, Bool.or_eq_true, ih, List.mem_cons]
    constructor
    · rintro (hne | hrest)
      · have := sweepDb_dellist_empty conf now p.2.rxMsgDb
        simp only [Bool.not_eq_true'] at hne
        rw [← Bool.not_eq_true] at hne
        have hq : ¬(∀ q ∈ p.2.rxMsgDb, ¬(now - q.2.rxTime > (conf.holdTime : ℚ))) := by
          intro hall
          exact hne (this.mpr hall)
        push_neg at hq
        obtain ⟨q, hqm, hqe⟩ := hq
        exact ⟨p, Or.inl rfl, q, hqm, hqe⟩
      · obtain ⟨p2, hp2, hq⟩ := hrest
        exact ⟨p2, Or.inr hp2, hq⟩
    · rintro ⟨p2, hp2 | hp2, q, hqm, hqe⟩
      · left
        subst hp2
        simp only [Bool.not_eq_true', ← Bool.not_eq_true]
        intro hempty
        exact (sweepDb_dellist_empty conf now p2.2.rxMsgDb).mp hempty q hqm hqe
      · right
        exact ⟨p2, hp2, q, hqm, hqe⟩

theorem pyLookup_isSome_iff {β : Type} (k : String) :
    ∀ l : List (String × β), (pyLookup k l).isSome = true ↔ k ∈ l.map Prod.fst := by
  intro l
  induction l with
  | nil => simp [pyLookup]
  | cons p rest ih =>
    by_cases h : p.1 = k
    · simp [pyLookup, h]
    · simp only [pyLookup, if_neg h, ih, List.map_cons, List.mem_cons]
      exact ⟨Or.inr, fun hk => hk.resolve_left (fun he => h he.symm)⟩

theorem pyUpsert_keys_of_mem {β : Type} (k : String) (v : β) :
    ∀ l : List (String × β), k ∈ l.map Prod.fst →
      (pyUpsert k v l).map Prod.fst = l.map Prod.fst := by
  intro l
  induction l with
  | nil => simp
  | cons p rest ih =>
    intro hmem
    by_cases h : p.1 = k
    · simp [pyUpsert, h]
    · simp only [List.map_cons] at hmem
      rcases List.mem_cons.mp hmem with hk | hk
      · exact absurd hk.symm h
      · simp [pyUpsert, h, ih hk]

theorem create_ok (conf : Conf) (rtd : Rtd) (fib : Fib) (ifn : String)
    (ns : List Network) (ifr : IfaceRtd)
    (hnet : conf.networks? = some ns)
    (hifr : pyLookup ifn rtd.interfaces = some ifr) :
    ∃ m, create_routing_msg conf rtd fib ifn =
      .ok (m, ⟨pyUpsert ifn { ifr with seqNoTx := ifr.seqNoTx + 1 } rtd.interfaces⟩) := by
  refine ⟨{ id? := some conf.id, seqNo? := some ifr.seqNoTx,
            origV4? := conf_originator_addr_by_iface_v4 conf ifn,
            networks? := some ((ns.filter (fun n => n.proto = "v4")).map
              (fun n => ([("v4-prefix", n.pfx ++ "/" ++ n.pfxLen)] : NetEntry))),
            routingpaths? :=
              if fib.high_bandwidth.dests.length > 0 ∨ fib.low_loss.dests.length > 0 ∨
                  fib.bw_and_loss.dests.length ≠ 0 ∨ fib.no_cost.dests.length ≠ 0 ∨
                  fib.bw_and_cost.dests.length > 0 then
                RPathsField.full fib
              else RPathsField.emptyDict }, ?_⟩
  simp [create_routing_msg, hifr, hnet, getOpt]

theorem txLoop_ok (conf : Conf) (fib : Fib) (ns : List Network)
    (hnet : conf.networks? = some ns) :
    ∀ (l : List (String × IfaceRtd)) (rtd : Rtd),
      (∀ k, k ∈ l.map Prod.fst → k ∈ rtd.interfaces.map Prod.fst) →
      ∃ rtdF txs, txLoop conf fib rtd l = .ok (rtdF, txs) ∧
        txs.map Prod.fst = l.map Prod.fst ∧
        rtdF.interfaces.map Prod.fst = rtd.interfaces.map Prod.fst := by
  intro l
  induction l with
  | nil => exact fun rtd _ => ⟨rtd, [], rfl, rfl, rfl⟩
  | cons p rest ih =>
    intro rtd hks
    have hk : p.1 ∈ rtd.interfaces.map Prod.fst := hks p.1 (by simp)
    obtain ⟨ifr, hifr⟩ := Option.isSome_iff_exists.mp ((pyLookup_isSome_iff p.1 _).mpr hk)
    obtain ⟨m, hcm⟩ := create_ok conf rtd fib p.1 ns ifr hnet hifr
    have hkeys2 : (Rtd.mk (pyUpsert p.1 { ifr with seqNoTx := ifr.seqNoTx + 1 }
        rtd.interfaces)).interfaces.map Prod.fst = rtd.interfaces.map Prod.fst :=
      pyUpsert_keys_of_mem p.1 _ rtd.interfaces hk
    obtain ⟨rtdF, txs, hloop, htx, hkf⟩ := ih
      ⟨pyUpsert p.1 { ifr with seqNoTx := ifr.seqNoTx + 1 } rtd.interfaces⟩
      (fun k hkm => by
        rw [hkeys2]
        exact hks k (by simp [hkm]))
    refine ⟨rtdF, (p.1, m) :: txs, ?_, by simp [htx], by rw [hkf, hkeys2]⟩
    unfold txLoop
    rw [hcm]
    simp only [except_bind_ok]
    rw [hloop]
    rfl

/-- Claim C7, amended: part (a) — a record is deleted by the sweep exactly
when `now - rx-time` strictly exceeds the hold time (at equality it stays);
part (b) — the recalc flag is set precisely when some record expired; part
(c) — when records were deleted and the subsequent recalculation succeeds,
the tick recomputes the FIBs and invokes the installer callback once (a
failing recalculation instead propagates the exception out of `tick` without
the callback — see the counterexample). -/
theorem c7_hold_time_eviction (conf : Conf) (now : ℚ) (r : Int) (st : State)
    (tn : ℚ) (fibR : Fib) (rt : RT) (rtd₂ : Rtd) (ns : List Network)
    (hstart : st.started = true)
    (htn : st.nextTxTime = some tn)
    (hnet : conf.networks? = some ns) :
    (∀ ifn ifr, pyLookup ifn st.rtd.interfaces = some ifr →
        (ifr.rxMsgDb.map Prod.fst).Nodup →
        pyLookup ifn (_check_outdated_route_entries conf now st.rtd).2.interfaces =
          some { ifr with rxMsgDb :=
            ifr.rxMsgDb.filter (fun q => decide (¬(now - q.2.rxTime > (conf.holdTime : ℚ)))) }) ∧
    ((_check_outdated_route_entries conf now st.rtd).1 = true ↔
        ∃ p ∈ st.rtd.interfaces, ∃ q ∈ p.2.rxMsgDb,
          now - q.2.rxTime > (conf.holdTime : ℚ)) ∧
    ((_check_outdated_route_entries conf now st.rtd).1 = true →
      _recalculate_routing_table conf (_check_outdated_route_entries conf now st.rtd).2 =
        .ok (fibR, rt, rtd₂) →
      ∃ st' eff, tick conf now r st = .ok (st', eff) ∧
        eff.installerCalls = [rt] ∧ st'.fib = fibR ∧ st'.routingTable = some rt) := by
  refine ⟨?_, ?_, ?_⟩
  · intro ifn ifr hifr hnd
    unfold _check_outdated_route_entries
    simp only
    rw [sweepIfaces_lookup conf now st.rtd.interfaces ifn ifr hifr,
      sweepDb_snd conf now ifr.rxMsgDb hnd]
  · unfold _check_outdated_route_entries
    simp only
    exact sweepIfaces_fst conf now st.rtd.interfaces
  · intro hflag hrec2
    obtain ⟨rtdF, txs, hloop, htx, hkf⟩ := txLoop_ok conf fibR ns hnet
      rtd₂.interfaces rtd₂ (fun k hk => hk)
    by_cases hge : now ≥ tn
    · have heq : tick conf now r st = .ok
          ({ st with
                rtd := rtdF, fib := fibR, routingTable := some rt,
                nextTxTime := some (now + ((conf.interval + r : Int) : ℚ)),
                transmittedNow := true },
           { installerCalls := [rt], txCalls := txs }) := by
        simp [tick, hstart, hflag, hrec2, htn, hge, tx_route_packet, hloop,
          _calc_next_tx_time]
      exact ⟨_, _, heq, rfl, rfl, rfl⟩
    · have heq : tick conf now r st = .ok
          ({ st with
                rtd := rtd₂, fib := fibR, routingTable := some rt,
                transmittedNow := false },
           { installerCalls := [rt], txCalls := [] }) := by
        simp [tick, hstart, hflag, hrec2, htn, hge]
      exact ⟨_, _, heq, rfl, rfl, rfl⟩

/-- The C7 counterexample state: sender `B` on `w0` is 100 seconds old (hold
time 90) and will be evicted; sender `X` is fresh but its stored message has
no `routingpaths` key, so the recalculation raises KeyError. -/
def c7MsgB : Msg :=
  { id? := some "B", seqNo? := some 0, origV4? := some "10.0.0.3",
    networks? := some [], routingpaths? := .emptyDict }

/-- The fresh but malformed sender `X`: its stored packet lacks the
`routingpaths` key entirely. -/
def c7MsgX : Msg :=
  { id? := some "X", seqNo? := some 1, origV4? := some "10.0.0.4",
    networks? := some [], routingpaths? := .missing }

def c7State : State :=
  { started := true,
    rtd := ⟨[("w0", ⟨0, [("B", ⟨0, c7MsgB⟩), ("X", ⟨100, c7MsgX⟩)]⟩)]⟩,
    fib := Fib.empty, routingTable := Option.none,
    nextTxTime := some 1000, transmittedNow := false }

/-- Claim C7, counterexample: at `now = 100` the sweep deletes `B` (so the
claim demands a recalculation and an installer callback in this tick), yet
`tick` raises KeyError and the installer callback never runs. -/
theorem c7_counterexample :
    (_check_outdated_route_entries exConf 100 c7State.rtd).1 = true ∧
    tick exConf 100 0 c7State = .error .keyError := by
  refine ⟨by decide, by decide⟩

/-- Witness for the amended C7 theorem: the state `exState` at `now = 100`,
where `C`'s record (received at 0, hold time 90) expires; the recalculation
over the swept (empty) database succeeds and the installer is called. -/
theorem c7_hold_time_eviction_witness :
    pyLookup "w0" (_check_outdated_route_entries exConf 100 exState.rtd).2.interfaces =
      some { seqNoTx := 0,
             rxMsgDb := ([("C", ⟨0, exMsgC⟩)] : List (String × NbrRec)).filter
               (fun q => decide (¬(100 - q.2.rxTime > (exConf.holdTime : ℚ)))) } ∧
    ((_check_outdated_route_entries exConf 100 exState.rtd).1 = true ↔
      ∃ p ∈ exState.rtd.interfaces, ∃ q ∈ p.2.rxMsgDb,
        100 - q.2.rxTime > (exConf.holdTime : ℚ)) ∧
    (∃ st' eff, tick exConf 100 3 exState = .ok (st', eff) ∧
      eff.installerCalls = [(okTriple (_recalculate_routing_table exConf
        (_check_outdated_route_entries exConf 100 exState.rtd).2)).2.1] ∧
      st'.fib = (okTriple (_recalculate_routing_table exConf
        (_check_outdated_route_entries exConf 100 exState.rtd).2)).1 ∧
      st'.routingTable = some (okTriple (_recalculate_routing_table exConf
        (_check_outdated_route_entries exConf 100 exState.rtd).2)).2.1) := by
  have h := c7_hold_time_eviction exConf 100 3 exState 1000
    (okTriple (_recalculate_routing_table exConf
      (_check_outdated_route_entries exConf 100 exState.rtd).2)).1
    (okTriple (_recalculate_routing_table exConf
      (_check_outdated_route_entries exConf 100 exState.rtd).2)).2.1
    (okTriple (_recalculate_routing_table exConf
      (_check_outdated_route_entries exConf 100 exState.rtd).2)).2.2
    [] (by decide) (by decide) (by decide)
  exact ⟨h.1 "w0" ⟨0, [("C", ⟨0, exMsgC⟩)]⟩ (by decide) (by decide), h.2.1,
    h.2.2 (by decide) (by decide)⟩

theorem sweepIfaces_keys (conf : Conf) (now : ℚ) :
    ∀ l : List (String × IfaceRtd),
      (sweepIfaces conf now l).2.map Prod.fst = l.map Prod.fst := by
  intro l
  induction l with
  | nil => rfl
  | cons p rest ih => simp [sweepIfaces, ih]

/-- Claim C8, amended: with a configuration that carries a `networks` key
(otherwise the transmission path raises KeyError — see the counterexample)
and a tick in which no neighbour record expired: (1) `start` schedules the
first transmission at `now + r` for the drawn jitter `r ∈ [0, jitter]`
(interval 0); (2) a due tick transmits exactly once per interface of the
runtime data and reschedules at `now + interval + r`, which lies in
`[now + interval, now + interval + jitter]`; (3) a tick before the scheduled
time transmits nothing and leaves the schedule unchanged. -/
theorem c8_tx_schedule (conf : Conf) (now : ℚ) (r : Int) (st : State)
    (tn : ℚ) (ns : List Network)
    (hstart : st.started = true)
    (hnet : conf.networks? = some ns)
    (hflag : (_check_outdated_route_entries conf now st.rtd).1 = false)
    (hr0 : 0 ≤ r) (hrj : r ≤ conf.jitter) :
    (st.routingTable = Option.none → st.nextTxTime = Option.none →
      ∃ st₀, start conf now r st = .ok st₀ ∧
        st₀.nextTxTime = some (now + (r : ℚ)) ∧
        now ≤ now + (r : ℚ) ∧ now + (r : ℚ) ≤ now + (conf.jitter : ℚ)) ∧
    (st.nextTxTime = some tn → now ≥ tn →
      ∃ st' txs, tick conf now r st =
          .ok (st', { installerCalls := [], txCalls := txs }) ∧
        st'.transmittedNow = true ∧
        st'.nextTxTime = some (now + ((conf.interval + r : Int) : ℚ)) ∧
        now + (conf.interval : ℚ) ≤ now + ((conf.interval + r : Int) : ℚ) ∧
        now + ((conf.interval + r : Int) : ℚ) ≤
          now + (conf.interval : ℚ) + (conf.jitter : ℚ) ∧
        txs.map Prod.fst = st.rtd.interfaces.map Prod.fst ∧
        ((st.rtd.interfaces.map Prod.fst).Nodup → (txs.map Prod.fst).Nodup)) ∧
    (st.nextTxTime = some tn → ¬ now ≥ tn →
      ∃ st', tick conf now r st = .ok (st', noEffects) ∧
        st'.nextTxTime = some tn ∧ st'.transmittedNow = false) := by
  have hrq : (0 : ℚ) ≤ (r : ℚ) := by exact_mod_cast hr0
  have hrjq : (r : ℚ) ≤ (conf.jitter : ℚ) := by exact_mod_cast hrj
  refine ⟨?_, ?_, ?_⟩
  · intro hrt hnone
    refine ⟨{ _init_runtime_data conf st with
                nextTxTime := some (now + (r : ℚ)), started := true }, ?_,
      rfl, by linarith, by linarith⟩
    simp only [start, _calc_next_tx_time, _init_runtime_data, hrt, hnone]
    norm_num
  · intro htn hge
    obtain ⟨rtdF, txs, hloop, htx, hkf⟩ := txLoop_ok conf st.fib ns hnet
      (_check_outdated_route_entries conf now st.rtd).2.interfaces
      (_check_outdated_route_entries conf now st.rtd).2 (fun k hk => hk)
    have hkeys : (_check_outdated_route_entries conf now st.rtd).2.interfaces.map
        Prod.fst = st.rtd.interfaces.map Prod.fst := sweepIfaces_keys conf now _
    have heq : tick conf now r st = .ok
        ({ st with
              rtd := rtdF,
              nextTxTime := some (now + ((conf.interval + r : Int) : ℚ)),
              transmittedNow := true },
         { installerCalls := [], txCalls := txs }) := by
      simp [tick, hstart, hflag, htn, hge, tx_route_packet, hloop,
        _calc_next_tx_time, noEffects]
    refine ⟨_, txs, heq, rfl, rfl, by push_cast; linarith, by push_cast; linarith,
      htx.trans hkeys, ?_⟩
    intro hnd
    rw [htx.trans hkeys]
    exact hnd
  · intro htn hge
    have heq : tick conf now r st = .ok
        ({ st with
              rtd := (_check_outdated_route_entries conf now st.rtd).2,
              transmittedNow := false }, noEffects) := by
      simp [tick, hstart, hflag, htn, hge]
    exact ⟨_, heq, htn, rfl⟩

/-- A registered configuration without a `networks` key. -/
def c8Conf : Conf :=
  { exConf with networks? := Option.none }

/-- A started core with one interface, an empty neighbour database and a
transmission due at time 50. -/
def c8State : State :=
  { started := true, rtd := ⟨[("w0", ⟨0, []⟩)]⟩, fib := Fib.empty,
    routingTable := Option.none, nextTxTime := some 50,
    transmittedNow := false }

/-- Claim C8, counterexample: the transmission is due (`now = 60 ≥ 50`), yet
`tick` raises KeyError (the configuration has no `networks` key, which
`create_routing_msg` reads unconditionally) and nothing is transmitted — so
a tick does not transmit whenever `now` has reached the scheduled time. -/
theorem c8_counterexample :
    c8State.nextTxTime = some 50 ∧ (50 : ℚ) ≤ 60 ∧
    tick c8Conf 60 0 c8State = .error .keyError := by
  refine ⟨rfl, by norm_num, by decide⟩

/-- Witness for the amended C8 theorem at a concrete input: configuration
`exConf` (interval 30, jitter 7), drawn jitter 3, a due schedule at 50
observed at `now = 60`. -/
theorem c8_tx_schedule_witness :
    (c8State.routingTable = Option.none → c8State.nextTxTime = Option.none →
      ∃ st₀, start exConf 60 3 c8State = .ok st₀ ∧
        st₀.nextTxTime = some (60 + ((3 : Int) : ℚ)) ∧
        (60 : ℚ) ≤ 60 + ((3 : Int) : ℚ) ∧
        60 + ((3 : Int) : ℚ) ≤ 60 + (exConf.jitter : ℚ)) ∧
    (c8State.nextTxTime = some 50 → (60 : ℚ) ≥ 50 →
      ∃ st' txs, tick exConf 60 3 c8State =
          .ok (st', { installerCalls := [], txCalls := txs }) ∧
        st'.transmittedNow = true ∧
        st'.nextTxTime = some (60 + ((exConf.interval + 3 : Int) : ℚ)) ∧
        (60 : ℚ) + (exConf.interval : ℚ) ≤ 60 + ((exConf.interval + 3 : Int) : ℚ) ∧
        (60 : ℚ) + ((exConf.interval + 3 : Int) : ℚ) ≤
          60 + (exConf.interval : ℚ) + (exConf.jitter : ℚ) ∧
        txs.map Prod.fst = c8State.rtd.interfaces.map Prod.fst ∧
        ((c8State.rtd.interfaces.map Prod.fst).Nodup → (txs.map Prod.fst).Nodup)) ∧
    (c8State.nextTxTime = some 50 → ¬ (60 : ℚ) ≥ 50 →
      ∃ st', tick exConf 60 3 c8State = .ok (st', noEffects) ∧
        st'.nextTxTime = some 50 ∧ st'.transmittedNow = false) :=
  c8_tx_schedule exConf 60 3 c8State 50 [] (by decide) (by decide) (by decide)
    (by decide) (by decide)

/-! ## Claim C10 — the recalculation writes the neighbour database -/

/-- The effect of `_calc_neigh_routing_paths` on one stored message: a
non-empty `routingpaths` gets the `path_characteristics` key injected into
each per-metric dict; other messages are untouched. -/
def injectMsg (m : Msg) : Msg :=
  { m with routingpaths? :=
      match m.routingpaths? with
      | .full f => .full (injectFib f)
      | x => x }

/-- The per-record form of `injectMsg`. -/
def injectRecV (r : NbrRec) : NbrRec :=
  { r with msg := injectMsg r.msg }

/-- The per-interface form of `injectMsg`. -/
def injectIfrV (i : IfaceRtd) : IfaceRtd :=
  { i with rxMsgDb := i.rxMsgDb.map (fun q => (q.1, injectRecV q.2)) }

theorem processSender_inject (conf : Conf) (iface sid : String) (rec : NbrRec)
    (nrp n' : NRP) (rec' : NbrRec)
    (h : processSender conf iface sid rec nrp = .ok (n', rec')) :
    rec' = injectRecV rec := by
  unfold processSender at h
  cases han : _add_all_neighs conf iface sid rec nrp with
  | error e => rw [han] at h; simp at h
  | ok nrp₁ =>
    rw [han] at h
    simp only [except_bind_ok] at h
    cases hrp : rec.msg.routingpaths? with
    | missing => rw [hrp] at h; simp at h
    | emptyDict =>
      rw [hrp] at h
      simp only [except_pure] at h
      injection h with h
      injection h with h1 h2
      rw [← h2]
      simp only [injectRecV, injectMsg, hrp]
      rw [← hrp]
    | full f =>
      rw [hrp] at h
      simp only [except_pure] at h
      injection h with h
      injection h with h1 h2
      rw [← h2]
      simp only [injectRecV, injectMsg, hrp]

theorem processDb_inject (conf : Conf) (iface : String) :
    ∀ (db : List (String × NbrRec)) (nrp n' : NRP) (db' : List (String × NbrRec)),
      processDb conf iface nrp db = .ok (n', db') →
      db' = db.map (fun p => (p.1, injectRecV p.2)) := by
  intro db
  induction db with
  | nil =>
    intro nrp n' db' h
    unfold processDb at h
    injection h with h
    injection h with h1 h2
    rw [← h2]
    rfl
  | cons p rest ih =>
    intro nrp n' db' h
    obtain ⟨sid, rec⟩ := p
    unfold processDb at h
    cases hps : processSender conf iface sid rec nrp with
    | error e => rw [hps] at h; simp at h
    | ok q =>
      obtain ⟨n₁, rec₁⟩ := q
      rw [hps] at h
      simp only [except_bind_ok] at h
      cases hdb : processDb conf iface n₁ rest with
      | error e => rw [hdb] at h; simp at h
      | ok q2 =>
        obtain ⟨n₂, rest₁⟩ := q2
        rw [hdb] at h
        simp only [except_bind_ok, except_pure] at h
        injection h with h
        injection h with h1 h2
        rw [← h2]
        simp only [List.map_cons]
        rw [processSender_inject conf iface sid rec nrp n₁ rec₁ hps,
          ih n₁ n₂ rest₁ hdb]

theorem processIfaces_inject (conf : Conf) :
    ∀ (l : List (String × IfaceRtd)) (nrp n' : NRP) (l' : List (String × IfaceRtd)),
      processIfaces conf nrp l = .ok (n', l') →
      l' = l.map (fun p => (p.1, injectIfrV p.2)) := by
  intro l
  induction l with
  | nil =>
    intro nrp n' l' h
    unfold processIfaces at h
    injection h with h
    injection h with h1 h2
    rw [← h2]
    rfl
  | cons p rest ih =>
    intro nrp n' l' h
    obtain ⟨ifn, ifr⟩ := p
    unfold processIfaces at h
    cases hdb : processDb conf ifn nrp ifr.rxMsgDb with
    | error e => rw [hdb] at h; simp at h
    | ok q =>
      obtain ⟨n₁, db'⟩ := q
      rw [hdb] at h
      simp only [except_bind_ok] at h
      cases hrest : processIfaces conf n₁ rest with
      | error e => rw [hrest] at h; simp at h
      | ok q2 =>
        obtain ⟨n₂, rest'⟩ := q2
        rw [hrest] at h
        simp only [except_bind_ok, except_pure] at h
        injection h with h
        injection h with h1 h2
        rw [← h2]
        simp only [List.map_cons]
        rw [processDb_inject conf ifn ifr.rxMsgDb nrp n₁ db' hdb,
          ih n₁ n₂ rest' hrest]
        rfl

theorem recalc_rtd_inject (conf : Conf) (rtd : Rtd) (fib : Fib) (rt : RT) (rtd' : Rtd)
    (h : _recalculate_routing_table conf rtd = .ok (fib, rt, rtd')) :
    rtd'.interfaces = rtd.interfaces.map (fun p => (p.1, injectIfrV p.2)) := by
  unfold _recalculate_routing_table at h
  unfold _calc_neigh_routing_paths at h
  cases hp : processIfaces conf NRP.empty rtd.interfaces with
  | error e => rw [hp] at h; simp at h
  | ok q =>
    obtain ⟨n₁, ifs⟩ := q
    rw [hp] at h
    simp only [except_bind_ok, except_pure] at h
    cases hr : restCore conf n₁ ⟨ifs⟩ with
    | error e => rw [hr] at h; simp at h
    | ok q2 =>
      obtain ⟨fib₁, rt₁⟩ := q2
      rw [hr] at h
      simp only [except_bind_ok, except_pure] at h
      injection h with h
      injection h with h1 h2
      injection h2 with h2 h3
      rw [← h3]
      exact processIfaces_inject conf rtd.interfaces NRP.empty n₁ ifs hp

/-- Claim C10: a recalculation is not read-only on the neighbour database —
every stored record keeps its rx-time, but a message that advertised a
non-empty `routingpaths` leaves the recalculation with the
`path_characteristics` table injected into each of its five per-metric dicts,
so the stored message no longer equals the message as received (whenever the
received per-metric dicts did not already carry that key). -/
theorem c10_recalc_writes_db (conf : Conf) (rtd : Rtd) (fib : Fib) (rt : RT) (rtd' : Rtd)
    (h : _recalculate_routing_table conf rtd = .ok (fib, rt, rtd'))
    (ifn sid : String) (ifr : IfaceRtd) (rec : NbrRec)
    (hifr : pyLookup ifn rtd.interfaces = some ifr)
    (hrec : pyLookup sid ifr.rxMsgDb = some rec) :
    ∃ ifr', pyLookup ifn rtd'.interfaces = some ifr' ∧
      ∃ rec', pyLookup sid ifr'.rxMsgDb = some rec' ∧
        rec'.rxTime = rec.rxTime ∧ rec'.msg = injectMsg rec.msg ∧
        (∀ f, rec.msg.routingpaths? = .full f →
          rec'.msg.routingpaths? = .full (injectFib f) ∧
          (f.low_loss.pc? = Option.none → rec'.msg ≠ rec.msg)) := by
  have hmap := recalc_rtd_inject conf rtd fib rt rtd' h
  refine ⟨injectIfrV ifr, ?_, injectRecV rec, ?_, rfl, rfl, ?_⟩
  · rw [hmap, pyLookup_map, hifr]
    rfl
  · simp only [injectIfrV]
    rw [pyLookup_map, hrec]
    rfl
  · intro f hf
    constructor
    · simp [injectRecV, injectMsg, hf]
    · intro hpc heq
      have h1 : injectMsg rec.msg = rec.msg := heq
      have h2 : (injectMsg rec.msg).routingpaths? = rec.msg.routingpaths? := by rw [h1]
      rw [hf] at h2
      simp only [injectMsg, hf] at h2
      injection h2 with h2
      have h3 : (injectFib f).low_loss.pc? = f.low_loss.pc? := by rw [h2]
      rw [hpc] at h3
      simp [injectFib] at h3

/-- Witness for C10: the run over `exRtd` — the stored message from `C` comes
out with the `path_characteristics` key injected and no longer equals
`exMsgC`. -/
theorem c10_recalc_writes_db_witness :
    pyLookup "w0" exRtd.interfaces = some ⟨0, [("C", ⟨0, exMsgC⟩)]⟩ ∧
    (∃ ifr', pyLookup "w0" (okTriple (_recalculate_routing_table exConf exRtd)).2.2.interfaces = some ifr' ∧
      ∃ rec', pyLookup "C" ifr'.rxMsgDb = some rec' ∧
        rec'.rxTime = (⟨0, exMsgC⟩ : NbrRec).rxTime ∧
        rec'.msg = injectMsg (⟨0, exMsgC⟩ : NbrRec).msg ∧
        (∀ f, (⟨0, exMsgC⟩ : NbrRec).msg.routingpaths? = .full f →
          rec'.msg.routingpaths? = .full (injectFib f) ∧
          (f.low_loss.pc? = Option.none → rec'.msg ≠ (⟨0, exMsgC⟩ : NbrRec).msg))) :=
  ⟨by decide,
   c10_recalc_writes_db exConf exRtd
     (okTriple (_recalculate_routing_table exConf exRtd)).1
     (okTriple (_recalculate_routing_table exConf exRtd)).2.1
     (okTriple (_recalculate_routing_table exConf exRtd)).2.2
     (by decide) "w0" "C" ⟨0, [("C", ⟨0, exMsgC⟩)]⟩ ⟨0, exMsgC⟩
     (by decide) (by decide)⟩

/-- Witness for C9 at a concrete input. -/
theorem c9_identical_content_refresh_witness :
    msg_rx exConf exState "w0" c9Msg 55 =
      .ok ({ exState with rtd := ⟨pyUpsert "w0"
              { seqNoTx := 0, rxMsgDb := pyUpsert "C" ⟨55, c9Msg⟩ [("C", ⟨0, exMsgC⟩)] }
              exState.rtd.interfaces⟩ }, noEffects) :=
  c9_identical_content_refresh exConf exState "w0" c9Msg 55 "C"
    ⟨0, [("C", ⟨0, exMsgC⟩)]⟩ ⟨0, exMsgC⟩ 1 7
    (by decide) (by decide) (by decide) (by decide) (by decide) (by decide)
    (by decide)
    (by simp [cmpPackets, pySetItem, pyUpsert, cmpDicts, cmpSub, cmpFind, pyEq,
      pyEqList, pyEqSub, pyEqFind, pyLookup, exMsgC, c9Msg, Msg.toPyVal, Fib.toPyVal,
      MetricDict.toPyVal, FibEntry.toPyVal, pcToPyVal, lcToPyVal, netToPyVal, exAdvFib])

/-! ## Claim C4 — algebraic properties of `_cmp_packets` -/

theorem pyval_sizeOf_pos (v : PyVal) : 0 < sizeOf v := by
  cases v <;> simp_arith

theorem sizeOf_val_lt_dict (d : List (String × PyVal)) (kv : String × PyVal)
    (h : kv ∈ d) : sizeOf kv.2 < sizeOf (PyVal.dict d) := by
  have h1 := List.sizeOf_lt_of_mem h
  obtain ⟨k, v⟩ := kv
  simp only [Prod.mk.sizeOf_spec] at h1
  simp only [PyVal.dict.sizeOf_spec]
  omega

theorem sizeOf_elem_lt_list (xs : List PyVal) (x : PyVal) (h : x ∈ xs) :
    sizeOf x < sizeOf (PyVal.list xs) := by
  have h1 := List.sizeOf_lt_of_mem h
  simp only [PyVal.list.sizeOf_spec]
  omega

/-- The per-key comparison used by the `_cmp_dicts` loop: dict values recurse,
other values use Python `==`. -/
def cmpComp (v w : PyVal) : Bool :=
  match v with
  | .dict _ => cmpDicts v w
  | _ => pyEq v w

theorem cmpFind_eq (k : String) (v : PyVal) :
    ∀ d2 : List (String × PyVal),
      cmpFind k v d2 = match pyLookup k d2 with
        | Option.none => false
        | some w => cmpComp v w := by
  intro d2
  induction d2 with
  | nil => cases v <;> simp [cmpFind, pyLookup]
  | cons p rest ih =>
    obtain ⟨k2, v2⟩ := p
    by_cases h : k2 = k
    · cases v <;> simp [cmpFind, pyLookup, h, cmpComp]
    · cases v <;> simp only [cmpFind, pyLookup, if_neg h] <;> exact ih

theorem pyEqFind_eq (k : String) (v : PyVal) :
    ∀ d2 : List (String × PyVal),
      pyEqFind k v d2 = match pyLookup k d2 with
        | Option.none => false
        | some w => pyEq v w := by
  intro d2
  induction d2 with
  | nil => simp [pyEqFind, pyLookup]
  | cons p rest ih =>
    obtain ⟨k2, v2⟩ := p
    by_cases h : k2 = k
    · simp [pyEqFind, pyLookup, h]
    · simp only [pyEqFind, pyLookup, if_neg h]
      exact ih

theorem cmpSub_iff (d1 d2 : List (String × PyVal)) :
    cmpSub d1 d2 = true ↔ ∀ kv ∈ d1, cmpFind kv.1 kv.2 d2 = true := by
  induction d1 with
  | nil => simp [cmpSub]
  | cons p rest ih =>
    obtain ⟨k, v⟩ := p
    simp [cmpSub, Bool.and_eq_true, ih]

theorem pyEqSub_iff (d1 d2 : List (String × PyVal)) :
    pyEqSub d1 d2 = true ↔ ∀ kv ∈ d1, pyEqFind kv.1 kv.2 d2 = true := by
  induction d1 with
  | nil => simp [pyEqSub]
  | cons p rest ih =>
    obtain ⟨k, v⟩ := p
    simp [pyEqSub, Bool.and_eq_true, ih]

theorem mem_of_pyLookup_eq_some {β : Type} (k : String) (v : β) :
    ∀ l : List (String × β), pyLookup k l = some v → (k, v) ∈ l := by
  intro l
  induction l with
  | nil => intro h; simp [pyLookup] at h
  | cons p rest ih =>
    obtain ⟨k2, v2⟩ := p
    intro h
    by_cases hk : k2 = k
    · simp only [pyLookup, if_pos hk] at h
      injection h with h
      subst hk
      subst h
      exact List.mem_cons_self _ _
    · simp only [pyLookup, if_neg hk] at h
      exact List.mem_cons.mpr (Or.inr (ih h))

theorem pyLookup_eq_some_of_mem {β : Type} (k : String) (v : β) :
    ∀ l : List (String × β), (k, v) ∈ l → (l.map Prod.fst).Nodup →
      pyLookup k l = some v := by
  intro l
  induction l with
  | nil => intro h; simp at h
  | cons p rest ih =>
    intro hmem hnd
    rcases List.mem_cons.mp hmem with heq | hmem2
    · simp [pyLookup, ← heq]
    · have hk : ¬p.1 = k := by
        intro hk
        have : k ∈ rest.map Prod.fst := List.mem_map.mpr ⟨(k, v), hmem2, rfl⟩
        simp only [List.map_cons, List.nodup_cons, hk] at hnd
        exact hnd.1 this
      simp only [pyLookup, if_neg hk]
      exact ih hmem2 ((List.nodup_cons.mp (by simpa using hnd)).2)

theorem pyWF_dict_nodup (d : List (String × PyVal)) (h : pyWF (.dict d) = true) :
    (d.map Prod.fst).Nodup := by
  simp only [pyWF, Bool.and_eq_true, decide_eq_true_eq] at h
  exact h.1

theorem pyWF_dict_values (d : List (String × PyVal)) (h : pyWF (.dict d) = true) :
    ∀ kv ∈ d, pyWF kv.2 = true := by
  simp only [pyWF, Bool.and_eq_true] at h
  have h2 := h.2
  clear h
  induction d with
  | nil => simp
  | cons p rest ih =>
    simp only [pyWFDict, Bool.and_eq_true] at h2
    intro kv hkv
    rcases List.mem_cons.mp hkv with heq | hm
    · rw [heq]; exact h2.1
    · exact ih h2.2 kv hm

theorem pyWF_list_elems (xs : List PyVal) (h : pyWF (.list xs) = true) :
    ∀ x ∈ xs, pyWF x = true := by
  simp only [pyWF] at h
  induction xs with
  | nil => simp
  | cons y ys ih =>
    simp only [pyWFList, Bool.and_eq_true] at h
    intro x hx
    rcases List.mem_cons.mp hx with heq | hm
    · rw [heq]; exact h.1
    · exact ih h.2 x hm

theorem pyWF_dict_intro (d : List (String × PyVal))
    (hnd : (d.map Prod.fst).Nodup) (hv : ∀ kv ∈ d, pyWF kv.2 = true) :
    pyWF (.dict d) = true := by
  simp only [pyWF, Bool.and_eq_true, decide_eq_true_eq]
  refine ⟨hnd, ?_⟩
  induction d with
  | nil => rfl
  | cons p rest ih =>
    simp only [pyWFDict, Bool.and_eq_true]
    refine ⟨hv p (by simp), ?_⟩
    exact ih ((List.nodup_cons.mp (by simpa using hnd)).2)
      (fun kv hkv => hv kv (List.mem_cons.mpr (Or.inr hkv)))

theorem keys_eq_of_sub (d1 d2 : List (String × PyVal))
    (hnd1 : (d1.map Prod.fst).Nodup) (hnd2 : (d2.map Prod.fst).Nodup)
    (hlen : d1.length = d2.length)
    (hsub : ∀ kv ∈ d1, kv.1 ∈ d2.map Prod.fst) :
    ∀ k ∈ d2.map Prod.fst, k ∈ d1.map Prod.fst := by
  have hfs : (d1.map Prod.fst).toFinset ⊆ (d2.map Prod.fst).toFinset := by
    intro k hk
    rw [List.mem_toFinset] at hk ⊢
    obtain ⟨kv, hkv, hk1⟩ := List.mem_map.mp hk
    exact hk1 ▸ hsub kv hkv
  have hc1 : (d1.map Prod.fst).toFinset.card = d1.length := by
    rw [List.toFinset_card_of_nodup hnd1, List.length_map]
  have hc2 : (d2.map Prod.fst).toFinset.card = d2.length := by
    rw [List.toFinset_card_of_nodup hnd2, List.length_map]
  have heq : (d1.map Prod.fst).toFinset = (d2.map Prod.fst).toFinset :=
    Finset.eq_of_subset_of_card_le hfs (by omega)
  intro k hk
  rw [← List.mem_toFinset, heq, List.mem_toFinset]
  exact hk

/-- With distinct keys in `dict2` (true of every real Python dict), the typo
`set(dict2.keys()) & set(dict2.keys())` combined with the missing parentheses
around the `and` makes the guard of `_cmp_dicts` behave as a plain length
check. -/
theorem cmpDicts_dict_eq (d1 d2 : List (String × PyVal))
    (hnd2 : (d2.map Prod.fst).Nodup) :
    cmpDicts (.dict d1) (.dict d2) =
      if d1.length = d2.length then cmpSub d1 d2 else false := by
  simp only [cmpDicts]
  rw [List.dedup_eq_self.mpr hnd2, List.length_map]
  by_cases h : d1.length = d2.length
  · simp [h]
  · simp [h, Ne.symm h]

theorem pyEq_refl_aux :
    ∀ n : Nat, ∀ v : PyVal, sizeOf v ≤ n → pyWF v = true → pyEq v v = true := by
  intro n
  induction n with
  | zero =>
    intro v hn _
    have := pyval_sizeOf_pos v
    omega
  | succ n ih =>
    intro v hn hv
    cases v with
    | none => simp [pyEq]
    | str s => simp [pyEq]
    | num q => simp [pyEq]
    | bool b => simp [pyEq]
    | list xs =>
      simp only [pyEq]
      have hel := pyWF_list_elems xs hv
      have hszxs : sizeOf xs ≤ n := by
        simp only [PyVal.list.sizeOf_spec] at hn
        omega
      clear hv hn
      induction xs with
      | nil => simp [pyEqList]
      | cons x xs' ihx =>
        simp only [pyEqList, Bool.and_eq_true]
        have hx : sizeOf x ≤ n := by
          simp only [List.cons.sizeOf_spec] at hszxs
          have := pyval_sizeOf_pos x
          omega
        refine ⟨ih x hx (hel x (by simp)), ?_⟩
        exact ihx (fun y hy => hel y (List.mem_cons.mpr (Or.inr hy)))
          (by simp only [List.cons.sizeOf_spec] at hszxs; omega)
    | dict d =>
      simp only [pyEq, Bool.and_eq_true, decide_eq_true_eq]
      refine ⟨trivial, ?_⟩
      rw [pyEqSub_iff]
      intro kv hkv
      have hnd := pyWF_dict_nodup d hv
      have hlk : pyLookup kv.1 d = some kv.2 :=
        pyLookup_eq_some_of_mem kv.1 kv.2 d (by exact hkv) hnd
      simp only [pyEqFind_eq, hlk]
      have hszv : sizeOf kv.2 ≤ n := by
        have := sizeOf_val_lt_dict d kv hkv
        omega
      exact ih kv.2 hszv (pyWF_dict_values d hv kv hkv)

theorem pyEq_refl (v : PyVal) (hv : pyWF v = true) : pyEq v v = true :=
  pyEq_refl_aux (sizeOf v) v le_rfl hv

theorem cmpDicts_refl_aux :
    ∀ n : Nat, ∀ d : List (String × PyVal), sizeOf (PyVal.dict d) ≤ n →
      pyWF (.dict d) = true → cmpDicts (.dict d) (.dict d) = true := by
  intro n
  induction n with
  | zero =>
    intro d hn _
    have := pyval_sizeOf_pos (PyVal.dict d)
    omega
  | succ n ih =>
    intro d hn hv
    have hnd := pyWF_dict_nodup d hv
    rw [cmpDicts_dict_eq d d hnd, if_pos rfl, cmpSub_iff]
    intro kv hkv
    have hlk : pyLookup kv.1 d = some kv.2 :=
      pyLookup_eq_some_of_mem kv.1 kv.2 d (by exact hkv) hnd
    simp only [cmpFind_eq, hlk]
    have hwf := pyWF_dict_values d hv kv hkv
    have hsz := sizeOf_val_lt_dict d kv hkv
    cases hv2 : kv.2 with
    | dict d' =>
      simp only [cmpComp]
      refine ih d' ?_ (hv2 ▸ hwf)
      rw [hv2] at hsz
      omega
    | none => simp [cmpComp, pyEq]
    | str s => simp [cmpComp, pyEq]
    | num q => simp [cmpComp, pyEq]
    | bool b => simp [cmpComp, pyEq]
    | list xs =>
      simp only [cmpComp]
      exact hv2 ▸ pyEq_refl kv.2 hwf

theorem cmpDicts_refl (d : List (String × PyVal)) (hv : pyWF (.dict d) = true) :
    cmpDicts (.dict d) (.dict d) = true :=
  cmpDicts_refl_aux (sizeOf (PyVal.dict d)) d le_rfl hv

theorem pyEqList_symm_of :
    ∀ (xs ys : List PyVal),
      (∀ x ∈ xs, ∀ y ∈ ys, pyEq x y = true → pyEq y x = true) →
      pyEqList xs ys = true → pyEqList ys xs = true := by
  intro xs
  induction xs with
  | nil =>
    intro ys _ h
    cases ys with
    | nil => exact h
    | cons _ _ => simp [pyEqList] at h
  | cons x xs' ihx =>
    intro ys hsym h
    cases ys with
    | nil => simp [pyEqList] at h
    | cons y ys' =>
      simp only [pyEqList, Bool.and_eq_true] at h ⊢
      refine ⟨hsym x (by simp) y (by simp) h.1, ?_⟩
      exact ihx ys' (fun a ha b hb => hsym a (by simp [ha]) b (by simp [hb])) h.2

theorem pyEq_symm_aux :
    ∀ n : Nat, ∀ v w : PyVal, sizeOf v + sizeOf w ≤ n →
      pyWF v = true → pyWF w = true → pyEq v w = true → pyEq w v = true := by
  intro n
  induction n with
  | zero =>
    intro v w hn _ _ _
    have := pyval_sizeOf_pos v
    omega
  | succ n ih =>
    intro v w hn hv hw heq
    cases v with
    | none => cases w <;> simp_all [pyEq]
    | str s => cases w <;> simp_all [pyEq]
    | num q => cases w <;> simp_all [pyEq]
    | bool b => cases w <;> simp_all [pyEq]
    | list xs =>
      cases w with
      | list ys =>
        simp only [pyEq] at heq ⊢
        have hxs := pyWF_list_elems xs hv
        have hys := pyWF_list_elems ys hw
        refine pyEqList_symm_of xs ys ?_ heq
        intro x hx y hy hxy
        have hb : sizeOf x + sizeOf y ≤ n := by
          have h1 := sizeOf_elem_lt_list xs x hx
          have h2 := sizeOf_elem_lt_list ys y hy
          omega
        exact ih x y hb (hxs x hx) (hys y hy) hxy
      | none => simp [pyEq] at heq
      | str s => simp [pyEq] at heq
      | num q => simp [pyEq] at heq
      | bool b => simp [pyEq] at heq
      | dict d => simp [pyEq] at heq
    | dict d1 =>
      cases w with
      | dict d2 =>
        simp only [pyEq, Bool.and_eq_true, decide_eq_true_eq] at heq ⊢
        obtain ⟨hlen, hsub⟩ := heq
        rw [pyEqSub_iff] at hsub
        have hnd1 := pyWF_dict_nodup d1 hv
        have hnd2 := pyWF_dict_nodup d2 hw
        refine ⟨hlen.symm, ?_⟩
        rw [pyEqSub_iff]
        intro kv hkv
        obtain ⟨k, w0⟩ := kv
        have hkeys1 : ∀ kv1 ∈ d1, kv1.1 ∈ d2.map Prod.fst := by
          intro kv1 h1
          have hf := hsub kv1 h1
          rw [pyEqFind_eq] at hf
          cases hl : pyLookup kv1.1 d2 with
          | none => rw [hl] at hf; simp at hf
          | some w1 =>
            exact (pyLookup_isSome_iff kv1.1 d2).mp (by rw [hl]; rfl)
        have hk1 : k ∈ d1.map Prod.fst :=
          keys_eq_of_sub d1 d2 hnd1 hnd2 hlen hkeys1 k
            (List.mem_map.mpr ⟨(k, w0), hkv, rfl⟩)
        obtain ⟨v0, hvlk⟩ : ∃ v0, pyLookup k d1 = some v0 :=
          Option.isSome_iff_exists.mp ((pyLookup_isSome_iff k d1).mpr hk1)
        have hvmem : (k, v0) ∈ d1 := mem_of_pyLookup_eq_some k v0 d1 hvlk
        have hf := hsub (k, v0) hvmem
        have hlk2 : pyLookup k d2 = some w0 :=
          pyLookup_eq_some_of_mem k w0 d2 hkv hnd2
        simp only [pyEqFind_eq, hvlk, hlk2] at hf ⊢
        have hb : sizeOf v0 + sizeOf w0 ≤ n := by
          have h1 := sizeOf_val_lt_dict d1 (k, v0) hvmem
          have h2 := sizeOf_val_lt_dict d2 (k, w0) hkv
          simp only at h1 h2
          omega
        exact ih v0 w0 hb (pyWF_dict_values d1 hv (k, v0) hvmem)
          (pyWF_dict_values d2 hw (k, w0) hkv) hf
      | none => simp [pyEq] at heq
      | str s => simp [pyEq] at heq
      | num q => simp [pyEq] at heq
      | bool b => simp [pyEq] at heq
      | list xs => simp [pyEq] at heq

theorem pyEq_symm (v w : PyVal) (hv : pyWF v = true) (hw : pyWF w = true) :
    pyEq v w = pyEq w v := by
  cases hvw : pyEq v w with
  | true => exact (pyEq_symm_aux (sizeOf v + sizeOf w) v w le_rfl hv hw hvw).symm
  | false =>
    cases hwv : pyEq w v with
    | false => rfl
    | true =>
      have := pyEq_symm_aux (sizeOf w + sizeOf v) w v le_rfl hw hv hwv
      rw [hvw] at this
      exact this

theorem cmpDicts_symm_aux :
    ∀ n : Nat, ∀ v w : PyVal, sizeOf v + sizeOf w ≤ n →
      pyWF v = true → pyWF w = true →
      cmpDicts v w = true → cmpDicts w v = true := by
  intro n
  induction n with
  | zero =>
    intro v w hn _ _ _
    have := pyval_sizeOf_pos v
    omega
  | succ n ih =>
    intro v w hn hv hw heq
    cases v with
    | none => cases w <;> simp [cmpDicts] at heq
    | str s => cases w <;> simp [cmpDicts] at heq
    | num q => cases w <;> simp [cmpDicts] at heq
    | bool b => cases w <;> simp [cmpDicts] at heq
    | list xs => cases w <;> simp [cmpDicts] at heq
    | dict d1 =>
      cases w with
      | none => simp [cmpDicts] at heq
      | str s => simp [cmpDicts] at heq
      | num q => simp [cmpDicts] at heq
      | bool b => simp [cmpDicts] at heq
      | list xs => simp [cmpDicts] at heq
      | dict d2 =>
        have hnd1 := pyWF_dict_nodup d1 hv
        have hnd2 := pyWF_dict_nodup d2 hw
        rw [cmpDicts_dict_eq d1 d2 hnd2] at heq
        rw [cmpDicts_dict_eq d2 d1 hnd1]
        have hlen : d1.length = d2.length := by
          by_contra hc
          rw [if_neg hc] at heq
          exact absurd heq (by simp)
        rw [if_pos hlen] at heq
        rw [if_pos hlen.symm, cmpSub_iff]
        rw [cmpSub_iff] at heq
        intro kv hkv
        obtain ⟨k, w0⟩ := kv
        have hkeys1 : ∀ kv1 ∈ d1, kv1.1 ∈ d2.map Prod.fst := by
          intro kv1 h1
          have hf := heq kv1 h1
          rw [cmpFind_eq] at hf
          cases hl : pyLookup kv1.1 d2 with
          | none => rw [hl] at hf; simp at hf
          | some w1 => exact (pyLookup_isSome_iff kv1.1 d2).mp (by rw [hl]; rfl)
        have hk1 : k ∈ d1.map Prod.fst :=
          keys_eq_of_sub d1 d2 hnd1 hnd2 hlen hkeys1 k
            (List.mem_map.mpr ⟨(k, w0), hkv, rfl⟩)
        obtain ⟨v0, hvlk⟩ : ∃ v0, pyLookup k d1 = some v0 :=
          Option.isSome_iff_exists.mp ((pyLookup_isSome_iff k d1).mpr hk1)
        have hvmem : (k, v0) ∈ d1 := mem_of_pyLookup_eq_some k v0 d1 hvlk
        have hf := heq (k, v0) hvmem
        have hlk2 : pyLookup k d2 = some w0 :=
          pyLookup_eq_some_of_mem k w0 d2 hkv hnd2
        simp only [cmpFind_eq, hvlk, hlk2] at hf ⊢
        have hwf0 := pyWF_dict_values d1 hv (k, v0) hvmem
        have hwf1 := pyWF_dict_values d2 hw (k, w0) hkv
        have hb : sizeOf v0 + sizeOf w0 ≤ n := by
          have h1 := sizeOf_val_lt_dict d1 (k, v0) hvmem
          have h2 := sizeOf_val_lt_dict d2 (k, w0) hkv
          simp only at h1 h2
          omega
        cases v0 <;> cases w0 <;> simp only [cmpComp] at hf ⊢ <;>
          first
            | exact ih _ _ hb hwf0 hwf1 hf
            | exact pyEq_symm_aux _ _ _ le_rfl hwf0 hwf1 hf
            | simp [cmpDicts] at hf
            | simp [pyEq] at hf

theorem cmpDicts_symm (v w : PyVal) (hv : pyWF v = true) (hw : pyWF w = true) :
    cmpDicts v w = cmpDicts w v := by
  cases hvw : cmpDicts v w with
  | true =>
    exact (cmpDicts_symm_aux (sizeOf v + sizeOf w) v w le_rfl hv hw hvw).symm
  | false =>
    cases hwv : cmpDicts w v with
    | false => rfl
    | true =>
      have := cmpDicts_symm_aux (sizeOf w + sizeOf v) w v le_rfl hw hv hwv
      rw [hvw] at this
      exact this

theorem pyUpsert_pyUpsert {β : Type} (k : String) (v w : β) :
    ∀ l : List (String × β), pyUpsert k v (pyUpsert k w l) = pyUpsert k v l := by
  intro l
  induction l with
  | nil => simp [pyUpsert]
  | cons p rest ih =>
    obtain ⟨k2, v2⟩ := p
    by_cases h : k2 = k <;> simp [pyUpsert, h, ih]

theorem pyUpsert_length_of_mem {β : Type} (k : String) (v : β) :
    ∀ l : List (String × β), k ∈ l.map Prod.fst →
      (pyUpsert k v l).length = l.length := by
  intro l
  induction l with
  | nil => simp
  | cons p rest ih =>
    intro hmem
    by_cases h : p.1 = k
    · simp [pyUpsert, h]
    · simp only [List.map_cons] at hmem
      rcases List.mem_cons.mp hmem with hk | hk
      · exact absurd hk.symm h
      · simp [pyUpsert, h, ih hk]

theorem pyUpsert_keys_of_not_mem {β : Type} (k : String) (v : β) :
    ∀ l : List (String × β), k ∉ l.map Prod.fst →
      (pyUpsert k v l).map Prod.fst = l.map Prod.fst ++ [k] := by
  intro l
  induction l with
  | nil => simp [pyUpsert]
  | cons p rest ih =>
    intro hmem
    simp only [List.map_cons, List.mem_cons] at hmem
    push_neg at hmem
    simp [pyUpsert, Ne.symm hmem.1, ih hmem.2]

theorem pyWFDict_pyUpsert (k : String) (v : PyVal) (hv : pyWF v = true) :
    ∀ d : List (String × PyVal), pyWFDict d = true →
      pyWFDict (pyUpsert k v d) = true := by
  intro d
  induction d with
  | nil => intro _; simp [pyUpsert, pyWFDict, hv]
  | cons p rest ih =>
    intro hd
    simp only [pyWFDict, Bool.and_eq_true] at hd
    by_cases h : p.1 = k
    · simp only [pyUpsert, if_pos h, pyWFDict, Bool.and_eq_true]
      exact ⟨hv, hd.2⟩
    · simp only [pyUpsert, if_neg h, pyWFDict, Bool.and_eq_true]
      exact ⟨hd.1, ih hd.2⟩

theorem pyWF_pyUpsert (k : String) (v : PyVal) (d : List (String × PyVal))
    (hd : pyWF (.dict d) = true) (hv : pyWF v = true) :
    pyWF (.dict (pyUpsert k v d)) = true := by
  simp only [pyWF, Bool.and_eq_true, decide_eq_true_eq] at hd ⊢
  refine ⟨?_, pyWFDict_pyUpsert k v hv d hd.2⟩
  by_cases hm : k ∈ d.map Prod.fst
  · rw [pyUpsert_keys_of_mem k v d hm]
    exact hd.1
  · rw [pyUpsert_keys_of_not_mem k v d hm]
    simp [List.nodup_append, hd.1, hm]

/-- Claim C4, amended: on well-formed packet values (as produced by any real
Python dict: distinct keys at every level), `_cmp_packets` is (1) reflexive
on dict packets (on a non-dict it raises TypeError instead, from
`p['sequence-no'] = 0`); (2) symmetric, exceptions included; (3) masks
`sequence-no`: two packets that differ only in that key compare equal; and
(4) a packet with strictly fewer keys than another compares unequal —
provided both packets carry a `sequence-no` key, for otherwise the masking
step inserts the missing key and can make the counts agree (see the
counterexample). -/
theorem c4_cmp_packets_props :
    (∀ p : PyVal, pyWF p = true → p.isDict = true →
      cmpPackets p p = .ok true) ∧
    (∀ p1 p2 : PyVal, pyWF p1 = true → pyWF p2 = true →
      cmpPackets p1 p2 = cmpPackets p2 p1) ∧
    (∀ (d : List (String × PyVal)) (s1 s2 : PyVal), pyWF (.dict d) = true →
      cmpPackets (.dict (pyUpsert "sequence-no" s1 d))
        (.dict (pyUpsert "sequence-no" s2 d)) = .ok true) ∧
    (∀ p1 p2 : PyVal, pyWF p2 = true → p1.isDict = true → p2.isDict = true →
      pyHasKey p1 "sequence-no" = true → pyHasKey p2 "sequence-no" = true →
      pyNumKeys p1 < pyNumKeys p2 → cmpPackets p1 p2 = .ok false) := by
  refine ⟨?_, ?_, ?_, ?_⟩
  · intro p hwf hd
    cases p with
    | dict d =>
      simp only [cmpPackets, pySetItem, except_bind_ok, except_pure]
      rw [cmpDicts_refl _ (pyWF_pyUpsert _ _ _ hwf (by simp [pyWF]))]
    | none => simp [PyVal.isDict] at hd
    | str s => simp [PyVal.isDict] at hd
    | num q => simp [PyVal.isDict] at hd
    | bool b => simp [PyVal.isDict] at hd
    | list xs => simp [PyVal.isDict] at hd
  · intro p1 p2 h1 h2
    cases p1 <;> cases p2 <;>
      simp only [cmpPackets, pySetItem, except_bind_ok, except_bind_error]
    rw [cmpDicts_symm _ _ (pyWF_pyUpsert _ _ _ h1 (by simp [pyWF]))
      (pyWF_pyUpsert _ _ _ h2 (by simp [pyWF]))]
  · intro d s1 s2 hwf
    simp only [cmpPackets, pySetItem, except_bind_ok, except_pure]
    rw [pyUpsert_pyUpsert, pyUpsert_pyUpsert]
    rw [cmpDicts_refl _ (pyWF_pyUpsert _ _ _ hwf (by simp [pyWF]))]
  · intro p1 p2 hwf2 hd1 hd2 hk1 hk2 hlt
    cases p1 with
    | dict d1 =>
      cases p2 with
      | dict d2 =>
        simp only [cmpPackets, pySetItem, except_bind_ok, except_pure]
        have hm1 : "sequence-no" ∈ d1.map Prod.fst := by
          simp only [pyHasKey] at hk1
          exact (pyLookup_isSome_iff _ _).mp hk1
        have hm2 : "sequence-no" ∈ d2.map Prod.fst := by
          simp only [pyHasKey] at hk2
          exact (pyLookup_isSome_iff _ _).mp hk2
        have hnd2' : ((pyUpsert "sequence-no" (.num 0) d2).map Prod.fst).Nodup := by
          rw [pyUpsert_keys_of_mem _ _ _ hm2]
          exact pyWF_dict_nodup d2 hwf2
        rw [cmpDicts_dict_eq _ _ hnd2',
          pyUpsert_length_of_mem _ _ _ hm1, pyUpsert_length_of_mem _ _ _ hm2,
          if_neg (by simp only [pyNumKeys] at hlt; omega)]
      | none => simp [PyVal.isDict] at hd2
      | str s => simp [PyVal.isDict] at hd2
      | num q => simp [PyVal.isDict] at hd2
      | bool b => simp [PyVal.isDict] at hd2
      | list xs => simp [PyVal.isDict] at hd2
    | none => simp [PyVal.isDict] at hd1
    | str s => simp [PyVal.isDict] at hd1
    | num q => simp [PyVal.isDict] at hd1
    | bool b => simp [PyVal.isDict] at hd1
    | list xs => simp [PyVal.isDict] at hd1

/-- A packet without a `sequence-no` key. -/
def pSmall : PyVal := .dict [("id", .str "B")]

/-- A packet with a `sequence-no` key. -/
def pA : PyVal := .dict [("id", .str "B"), ("sequence-no", .num 5)]

/-- Like `pA` but with another sequence number. -/
def pB : PyVal := .dict [("id", .str "B"), ("sequence-no", .num 9)]

/-- A one-key packet carrying only `sequence-no`. -/
def pOne : PyVal := .dict [("sequence-no", .num 1)]

/-- Claim C4, counterexample to the fewer-keys clause as stated: `pSmall` has
strictly fewer keys than `pA` (it lacks `sequence-no`), yet the two compare
equal — the masking step inserts `sequence-no` into the copy of `pSmall`. -/
theorem c4_counterexample :
    pyNumKeys pSmall < pyNumKeys pA ∧ cmpPackets pSmall pA = .ok true := by
  refine ⟨by decide, ?_⟩
  simp [cmpPackets, pySetItem, pyUpsert, cmpDicts, cmpSub, cmpFind, pyEq,
    pyLookup, pSmall, pA]

/-- Witness for the amended C4 theorem at concrete packets. -/
theorem c4_cmp_packets_props_witness :
    cmpPackets pA pA = .ok true ∧
    cmpPackets pA pB = cmpPackets pB pA ∧
    cmpPackets (.dict (pyUpsert "sequence-no" (.num 5) [("id", .str "B")]))
      (.dict (pyUpsert "sequence-no" (.num 9) [("id", .str "B")])) = .ok true ∧
    cmpPackets pOne pA = .ok false := by
  refine ⟨c4_cmp_packets_props.1 pA ?_ ?_,
    c4_cmp_packets_props.2.1 pA pB ?_ ?_,
    c4_cmp_packets_props.2.2.1 [("id", .str "B")] (.num 5) (.num 9) ?_,
    c4_cmp_packets_props.2.2.2 pOne pA ?_ ?_ ?_ ?_ ?_ ?_⟩
  · simp [pA, pyWF, pyWFDict]
  · rfl
  · simp [pA, pyWF, pyWFDict]
  · simp [pB, pyWF, pyWFDict]
  · simp [pyWF, pyWFDict]
  · simp [pA, pyWF, pyWFDict]
  · rfl
  · rfl
  · simp [pOne, pyHasKey, pyLookup]
  · simp [pA, pyHasKey, pyLookup]
  · decide

end DmprSpec
